import Mathlib

/-!
Shallow embedding of `src/drivers/cpufreq/autosmp.c` (the AutoSMP hotplug
driver): the periodic decision tick `asmp_work_fn`, its helpers
(`num_online_cluster_cpus`, `get_offline_core`, `get_online_core`), and the
suspend/resume controller (`asmp_suspend`, `asmp_resume`,
`lcd_notifier_call`).

Modelling conventions:
- The machine is the two-cluster topology the driver is written for
  (`MAX_CLUSTERS = 2`, `MAX_CPU_PER_CLUSTERS = 4`): possible cpus are
  `0..7`, `topology_physical_package_id cpu = cpu / 4`, so cpus `0..3`
  form `CLUSTER_LITTLE` and cpus `4..7` form `CLUSTER_BIG`;
  `nr_cpu_ids = 8`.
- The online cpu mask is a function `Nat → Bool`; `cpu_online` tests a
  cpu against the mask like `cpu_online()` does (bits at or beyond
  `nr_cpu_ids` read as offline, matching the fixed-width kernel cpumask).
- `cpufreq_quick_get` / `cpufreq_quick_get_max` are inputs to the tick
  (`freq`, `maxFreq : Nat → Nat`); frequencies are `unsigned int`, so the
  hypotheses of several theorems bound them by `UINT_MAX`.
- Kernel calls `cpu_up(c)` / `cpu_down(c)` and the work-queue operations
  are recorded in an `Event` trace, and their effect on the mask is
  applied by `cpu_up_state` / `cpu_down_state`.
- Ticks are serialized (one work item), so the tick is a pure function
  from the pre-tick state and the sampled frequencies to the post-tick
  state plus the list of hotplug requests it issued.
-/

namespace Autosmp

/-- `CLUSTER_LITTLE` (autosmp.c line 37). -/
def CLUSTER_LITTLE : Nat := 0

/-- `CLUSTER_BIG` (autosmp.c line 38). -/
def CLUSTER_BIG : Nat := 1

/-- `MAX_CPU_PER_CLUSTERS` (autosmp.c line 40). -/
def MAX_CPU_PER_CLUSTERS : Nat := 4

/-- `nr_cpu_ids` for the 2-cluster / 4-cores-per-cluster machine. -/
def nr_cpu_ids : Nat := 8

/-- The possible cpus, in the ascending order every `for_each_possible_cpu`
and `for_each_online_cpu` loop walks them. -/
def possible_cpus : List Nat := [0, 1, 2, 3, 4, 5, 6, 7]

/-- `topology_physical_package_id`: cpus 0-3 are the little cluster,
cpus 4-7 the big cluster. -/
def topology_physical_package_id (cpu : Nat) : Nat := cpu / 4

/-- `UINT_MAX`, the initializer of `slow_rate` / `slow_rate_hmp`. -/
def UINT_MAX : Nat := 4294967295

/-- Truncation to `unsigned int`: the hysteresis counter and the tunables
are u32, so the driver's arithmetic on them wraps modulo 2^32. -/
def u32 (n : Nat) : Nat := n % 4294967296

/-- `struct asmp_param_struct` (autosmp.c lines 53-74): the tunables read
by the tick.  `delay` is declared in the struct but never read. -/
structure AsmpParam where
  delay : Nat
  max_cpus : Nat
  min_cpus : Nat
  min_cpus_hmp : Nat
  cpufreq_up : Nat
  cpufreq_down : Nat
  cpufreq_up_hmp : Nat
  cpufreq_down_hmp : Nat
  cycle_up : Nat
  cycle_down : Nat
deriving Repr

/-- The requests the driver issues to its collaborators: `cpu_up`,
`cpu_down`, `cancel_delayed_work_sync`, `schedule_work(&cpu_all_up_work)`. -/
inductive Event where
  | up : Nat → Event
  | down : Nat → Event
  | cancelTick : Event
  | queueAllUp : Event
deriving DecidableEq, Repr

/-- Driver state: the online mask, the global hysteresis counter `cycle`
(autosmp.c line 76), and whether the delayed work is queued. -/
structure AsmpState where
  online : Nat → Bool
  cycle : Nat
  queued : Bool

/-- `cpu_online(cpu)`: tests the online mask; bits at or beyond
`nr_cpu_ids` read as offline. -/
def cpu_online (cpu : Nat) (o : Nat → Bool) : Bool :=
  decide (cpu < nr_cpu_ids) && o cpu

/-- Effect of a successful `cpu_up(cpu)` on the mask (no effect for an
impossible cpu, where the kernel call just fails). -/
def cpu_up_state (cpu : Nat) (o : Nat → Bool) : Nat → Bool :=
  if cpu < nr_cpu_ids then Function.update o cpu true else o

/-- Effect of a successful `cpu_down(cpu)` on the mask. -/
def cpu_down_state (cpu : Nat) (o : Nat → Bool) : Nat → Bool :=
  if cpu < nr_cpu_ids then Function.update o cpu false else o

/-- `num_online_cluster_cpus` (autosmp.c lines 79-89): count the online
cpus of a cluster. -/
def num_online_cluster_cpus (cluster : Nat) (o : Nat → Bool) : Nat :=
  possible_cpus.foldl
    (fun cnt cpu =>
      if cpu_online cpu o && (topology_physical_package_id cpu == cluster)
      then cnt + 1 else cnt)
    0

/-- `get_offline_core` (autosmp.c lines 91-104): the first possible cpu of
the cluster that is offline, or 0 when every one is online. -/
def get_offline_core (cluster : Nat) (o : Nat → Bool) : Nat :=
  (possible_cpus.find? (fun cpu =>
      (topology_physical_package_id cpu == cluster) && !(cpu_online cpu o))).getD 0

/-- `get_online_core` (autosmp.c lines 106-121): the first possible
non-zero cpu of the cluster that is online, or 0 when there is none. -/
def get_online_core (cluster : Nat) (o : Nat → Bool) : Nat :=
  (possible_cpus.find? (fun cpu =>
      (cpu != 0) && (topology_physical_package_id cpu == cluster)
        && cpu_online cpu o)).getD 0

/-- `cpumask_next_zero(n, cpu_online_mask)`: the first cpu strictly after
`n` that is offline, or `nr_cpu_ids` when all later possible cpus are
online. -/
def cpumask_next_zero (n : Nat) (o : Nat → Bool) : Nat :=
  (possible_cpus.find? (fun cpu => decide (n < cpu) && !(o cpu))).getD nr_cpu_ids

/-- `up_rate[cluster]` (autosmp.c lines 141-161).  The `prev_cluster` skip
makes the loop read each cluster's maximum frequency from its first
possible cpu: cpu 0 for the little cluster, cpu 4 for the big one. -/
def up_rate (p : AsmpParam) (maxFreq : Nat → Nat) (cluster : Nat) : Nat :=
  if cluster == CLUSTER_LITTLE then p.cpufreq_up * maxFreq 0 / 100
  else p.cpufreq_up_hmp * maxFreq 4 / 100

/-- `down_rate[cluster]` (autosmp.c lines 141-161). -/
def down_rate (p : AsmpParam) (maxFreq : Nat → Nat) (cluster : Nat) : Nat :=
  if cluster == CLUSTER_LITTLE then p.cpufreq_down * maxFreq 0 / 100
  else p.cpufreq_down_hmp * maxFreq 4 / 100

/-- The filter each sampling loop applies to a cpu: online, member of the
cluster being sampled, and not cpu 0 (the `if (cpu)` test). -/
def sel (cluster : Nat) (o : Nat → Bool) (cpu : Nat) : Bool :=
  cpu_online cpu o && (topology_physical_package_id cpu == cluster) && (cpu != 0)

/-- Accumulator of a sampling loop: `slow_cpu`, `slow_rate`, `fast_rate`
(resp. their `_hmp` twins). -/
structure SampleResult where
  slow_cpu : Nat
  slow_rate : Nat
  fast_rate : Nat
deriving DecidableEq, Repr

/-- One iteration of a sampling loop (autosmp.c lines 168-181 and
231-244): keep the running minimum and its cpu (`rate <= slow_rate`),
else maybe bump the running maximum (`rate > fast_rate`). -/
def sample_step (cluster : Nat) (o : Nat → Bool) (freq : Nat → Nat)
    (acc : SampleResult) (cpu : Nat) : SampleResult :=
  if sel cluster o cpu then
    let rate := freq cpu
    if rate ≤ acc.slow_rate then { acc with slow_cpu := cpu, slow_rate := rate }
    else if rate > acc.fast_rate then { acc with fast_rate := rate }
    else acc
  else acc

/-- A whole sampling pass (autosmp.c lines 163-184 for the little cluster
with `refCpu = 0, slow0 = 0`; lines 229-247 for the big cluster with
`refCpu = get_online_core(CLUSTER_BIG)`, `slow0 = 4`): seed `fast_rate`
with the reference cpu's rate, scan the online members, then fold the
reference cpu's rate into the minimum. -/
def sample_pass (cluster refCpu slow0 : Nat) (o : Nat → Bool)
    (freq : Nat → Nat) : SampleResult :=
  let refRate := freq refCpu
  let r := possible_cpus.foldl (sample_step cluster o freq)
    { slow_cpu := slow0, slow_rate := UINT_MAX, fast_rate := refRate }
  if refRate < r.slow_rate then { r with slow_rate := refRate } else r

/-- The shared shape of the two decision blocks (autosmp.c lines 186-210
and 249-273).  Scale up when `slow_rate > upR`, the cluster is below the
hard cap and the counter has reached `cycUp`; otherwise scale down when a
candidate exists, `fast_rate < downR`, the cluster is above `minC` and
the counter has reached `cycDownEff`.  Either branch zeroes the counter.
The little path's redundant inner `(slow_cpu)` re-check is subsumed by
the outer `slow_cpu &&` guard.  Returns (mask, cycle, requests). -/
def engine_step (upR downR cycUp cycDownEff minC nzStart : Nat)
    (smp : SampleResult) (nr : Nat) (o : Nat → Bool) (cycle : Nat) :
    (Nat → Bool) × Nat × List Event :=
  if upR < smp.slow_rate then
    if nr < MAX_CPU_PER_CLUSTERS ∧ cycUp ≤ cycle then
      let cpu := cpumask_next_zero nzStart o
      if cpu_online cpu o then (o, 0, [])
      else (cpu_up_state cpu o, 0, [Event.up cpu])
    else (o, cycle, [])
  else if smp.slow_cpu ≠ 0 ∧ smp.fast_rate < downR then
    if minC < nr ∧ cycDownEff ≤ cycle then
      if cpu_online smp.slow_cpu o then
        (cpu_down_state smp.slow_cpu o, 0, [Event.down smp.slow_cpu])
      else (o, 0, [])
    else (o, cycle, [])
  else (o, cycle, [])

/-- The HMP trade-down loop (autosmp.c lines 223-226):
`while (nr_cpu_online > 2) { cpu_down(get_online_core(CLUSTER_LITTLE)); nr_cpu_online--; }`.
The local counter, not the live count, controls termination. -/
def trade_down_loop : Nat → (Nat → Bool) → (Nat → Bool) × List Event
  | 0, o => (o, [])
  | 1, o => (o, [])
  | 2, o => (o, [])
  | n + 3, o =>
    let c := get_online_core CLUSTER_LITTLE o
    let o2 := cpu_down_state c o
    let r := trade_down_loop (n + 2) o2
    (r.1, Event.down c :: r.2)

/-- The HMP handler (autosmp.c lines 212-274).  With no big core online:
when the little cluster is at the hard cap, bring one big core up and
trade the little cluster down to 2.  Otherwise run the decision block on
the big cluster with its scaled thresholds, `min_cpus_hmp`, and the
down-cycle threshold `cycle_down * 3`, a u32 product that wraps at
2^32. -/
def hmp_handler (p : AsmpParam) (maxFreq freq : Nat → Nat)
    (o : Nat → Bool) (cycle : Nat) : (Nat → Bool) × Nat × List Event :=
  let nr := num_online_cluster_cpus CLUSTER_LITTLE o
  let nrHmp := num_online_cluster_cpus CLUSTER_BIG o
  if nrHmp == 0 then
    if MAX_CPU_PER_CLUSTERS ≤ nr then
      let c := get_offline_core CLUSTER_BIG o
      let o2 := cpu_up_state c o
      let r := trade_down_loop nr o2
      (r.1, cycle, Event.up c :: r.2)
    else (o, cycle, [])
  else
    let smp := sample_pass CLUSTER_BIG (get_online_core CLUSTER_BIG o) 4 o freq
    engine_step (up_rate p maxFreq CLUSTER_BIG) (down_rate p maxFreq CLUSTER_BIG)
      p.cycle_up (u32 (p.cycle_down * 3)) p.min_cpus_hmp 3 smp nrHmp o cycle

/-- `asmp_work_fn` (autosmp.c lines 129-276): one tick.  Increment the
u32 counter `cycle` (wrapping at 2^32), run the little-cluster decision
block, then the HMP handler, and reschedule the work. -/
def asmp_work_fn (p : AsmpParam) (maxFreq freq : Nat → Nat)
    (s : AsmpState) : AsmpState × List Event :=
  let cyc := u32 (s.cycle + 1)
  let nr := num_online_cluster_cpus CLUSTER_LITTLE s.online
  let smp := sample_pass CLUSTER_LITTLE 0 0 s.online freq
  let r1 := engine_step (up_rate p maxFreq CLUSTER_LITTLE)
    (down_rate p maxFreq CLUSTER_LITTLE) p.cycle_up p.cycle_down
    p.min_cpus 0 smp nr s.online cyc
  let r2 := hmp_handler p maxFreq freq r1.1 r1.2.1
  ({ online := r2.1, cycle := r2.2.1, queued := true }, r1.2.2 ++ r2.2.2)

/-- One iteration of the suspend unplug loop (autosmp.c lines 297-301):
skip offline cpus and cpu 0, take every other online cpu down. -/
def susp_step (acc : (Nat → Bool) × List Event) (cpu : Nat) :
    (Nat → Bool) × List Event :=
  if !(cpu_online cpu acc.1) || cpu == 0 then acc
  else (cpu_down_state cpu acc.1, acc.2 ++ [Event.down cpu])

/-- `asmp_suspend` (autosmp.c lines 292-308): walk cpus from `nr_cpu_ids`
down to 0 unplugging every online non-zero cpu, then — only when the
driver is enabled — synchronously cancel the delayed work. -/
def asmp_suspend (enabled : Bool) (s : AsmpState) : AsmpState × List Event :=
  let r := ((List.range (nr_cpu_ids + 1)).reverse).foldl susp_step (s.online, [])
  if enabled then
    ({ online := r.1, cycle := s.cycle, queued := false }, r.2 ++ [Event.cancelTick])
  else ({ s with online := r.1 }, r.2)

/-- `asmp_resume` (autosmp.c lines 310-319): schedule the bring-all-up
work, and when enabled re-queue the tick. -/
def asmp_resume (enabled : Bool) (s : AsmpState) : AsmpState × List Event :=
  if enabled then ({ s with queued := true }, [Event.queueAllUp])
  else (s, [Event.queueAllUp])

/-- The display events the notifier distinguishes. -/
inductive LcdEvent where
  | onStart : LcdEvent
  | offEnd : LcdEvent
  | other : LcdEvent
deriving DecidableEq, Repr

/-- `lcd_notifier_call` (autosmp.c lines 321-336). -/
def lcd_notifier_call (enabled : Bool) (ev : LcdEvent) (s : AsmpState) :
    AsmpState × List Event :=
  match ev with
  | LcdEvent.onStart => asmp_resume enabled s
  | LcdEvent.offEnd => asmp_suspend enabled s
  | LcdEvent.other => (s, [])

/-! ### Concrete configurations and states used by witnesses and
counterexamples -/

/-- The driver's default tunables (autosmp.c lines 64-74), with
`max_cpus = nr_cpu_ids` as set by `asmp_init`. -/
def pDef : AsmpParam :=
  { delay := 0, max_cpus := 8, min_cpus := 1, min_cpus_hmp := 0,
    cpufreq_up := 60, cpufreq_down := 30, cpufreq_up_hmp := 90,
    cpufreq_down_hmp := 60, cycle_up := 1, cycle_down := 1 }

/-- Every cluster maximum frequency reads 100. -/
def mfC : Nat → Nat := fun _ => 100

/-- Every core reports frequency 50. -/
def fC : Nat → Nat := fun _ => 50

/-- Every core reports frequency 100. -/
def fH : Nat → Nat := fun _ => 100

/-- Tunables with an unsatisfiable efficiency-cluster minimum of 5 cores,
and a long down window so no scale-down fires. -/
def pC2 : AsmpParam := { pDef with min_cpus := 5, cycle_down := 10 }

/-- Cpus 0-4 online (4 little cores and 1 big core). -/
def sC2 : AsmpState := { online := fun c => decide (c < 5), cycle := 0, queued := true }

/-- Tunables with `cycle_down = 1431655766`, whose tripled u32 product
wraps to 2. -/
def pC9 : AsmpParam := { pDef with cycle_down := 1431655766 }

/-- All little cores online, no big core, counter at 5. -/
def sC3 : AsmpState := { online := fun c => decide (c < 4), cycle := 5, queued := true }

/-- Only cpus 0 and 1 online. -/
def sC5 : AsmpState := { online := fun c => decide (c < 2), cycle := 0, queued := true }

/-- Cpus 0 and 1 online. -/
def oC6 : Nat → Bool := fun c => decide (c < 2)

/-- Cpu 1 reads frequency 5, every other cpu reads 0. -/
def fC6 : Nat → Nat := fun c => if c = 1 then 5 else 0

/-- Cpus 0, 1, 2 online. -/
def oC7 : Nat → Bool := fun c => decide (c < 3)

/-- Every core reports frequency 7. -/
def fC7 : Nat → Nat := fun _ => 7

/-- All little cores online, no big core. -/
def oC4 : Nat → Bool := fun c => decide (c < 4)

/-- Cpus 0-4 online. -/
def oC9 : Nat → Bool := fun c => decide (c < 5)

/-- All possible cpus online. -/
def oFull : Nat → Bool := fun c => decide (c < 8)

/-- All possible cpus online, work queued. -/
def sW5 : AsmpState := { online := oFull, cycle := 0, queued := true }

/-- A sample whose minimum sits exactly on a 60 up-threshold and whose
maximum sits exactly on a 30 down-threshold. -/
def smpW : SampleResult := { slow_cpu := 1, slow_rate := 60, fast_rate := 30 }

/-! ### The invariant relating a sampling loop's accumulator to the
processed portion of the cpu list -/

/-- Invariant of the `slow_cpu` / `slow_rate` pair of a sampling loop
after folding over `l` starting from `acc`: either no selected cpu was
slow enough to take over the running minimum, or the pair holds a
selected cpu of `l` realising the minimum over the selected cpus of `l`,
every selected cpu after it being strictly faster. -/
def SlowInv (cluster : Nat) (o : Nat → Bool) (f : Nat → Nat)
    (l : List Nat) (acc r : SampleResult) : Prop :=
  (r.slow_cpu = acc.slow_cpu ∧ r.slow_rate = acc.slow_rate ∧
    ∀ c ∈ l, sel cluster o c = true → acc.slow_rate < f c)
  ∨ (sel cluster o r.slow_cpu = true ∧ r.slow_cpu ∈ l ∧
    r.slow_rate = f r.slow_cpu ∧ r.slow_rate ≤ acc.slow_rate ∧
    (∀ c ∈ l, sel cluster o c = true → r.slow_rate ≤ f c) ∧
    (∀ c ∈ l, sel cluster o c = true → r.slow_cpu < c → r.slow_rate < f c))

/-- The whole-list sampling fold, as `sample_pass` performs it before the
final reference-rate adjustment. -/
def sample_fold (cluster slow0 refRate : Nat) (o : Nat → Bool)
    (f : Nat → Nat) : SampleResult :=
  possible_cpus.foldl (sample_step cluster o f)
    { slow_cpu := slow0, slow_rate := UINT_MAX, fast_rate := refRate }

/-! ### Generic fold and list lemmas -/

lemma foldl_inv {α β : Type} (P : β → Prop) (f : β → α → β) :
    ∀ (l : List α) (b : β), P b → (∀ x b2, x ∈ l → P b2 → P (f b2 x)) →
      P (l.foldl f b) := by
  intro l
  induction l with
  | nil => intro b hb _; exact hb
  | cons x t ih =>
    intro b hb hstep
    rw [List.foldl_cons]
    exact ih (f b x) (hstep x b (List.mem_cons_self x t) hb)
      (fun y b2 hy hb2 => hstep y b2 (List.mem_cons_of_mem x hy) hb2)

/-! ### Counting lemmas -/

lemma count_little_eq (o : Nat → Bool) :
    num_online_cluster_cpus CLUSTER_LITTLE o =
      (o 0).toNat + (o 1).toNat + (o 2).toNat + (o 3).toNat := by
  simp only [num_online_cluster_cpus, possible_cpus, CLUSTER_LITTLE, cpu_online,
    topology_physical_package_id, nr_cpu_ids, List.foldl]
  norm_num
  cases o 0 <;> cases o 1 <;> cases o 2 <;> cases o 3 <;> rfl

lemma count_big_eq (o : Nat → Bool) :
    num_online_cluster_cpus CLUSTER_BIG o =
      (o 4).toNat + (o 5).toNat + (o 6).toNat + (o 7).toNat := by
  simp only [num_online_cluster_cpus, possible_cpus, CLUSTER_BIG, cpu_online,
    topology_physical_package_id, nr_cpu_ids, List.foldl]
  norm_num
  cases o 4 <;> cases o 5 <;> cases o 6 <;> cases o 7 <;> rfl

lemma count_little_le (o : Nat → Bool) :
    num_online_cluster_cpus CLUSTER_LITTLE o ≤ 4 := by
  rw [count_little_eq]
  cases o 0 <;> cases o 1 <;> cases o 2 <;> cases o 3 <;> simp

lemma count_big_le (o : Nat → Bool) :
    num_online_cluster_cpus CLUSTER_BIG o ≤ 4 := by
  rw [count_big_eq]
  cases o 4 <;> cases o 5 <;> cases o 6 <;> cases o 7 <;> simp

lemma count_little_all (o : Nat → Bool)
    (h : 4 ≤ num_online_cluster_cpus CLUSTER_LITTLE o) :
    o 0 = true ∧ o 1 = true ∧ o 2 = true ∧ o 3 = true := by
  rw [count_little_eq] at h
  cases h0 : o 0 <;> cases h1 : o 1 <;> cases h2 : o 2 <;> cases h3 : o 3 <;>
    simp_all

lemma count_big_zero (o : Nat → Bool)
    (h : num_online_cluster_cpus CLUSTER_BIG o = 0) :
    o 4 = false ∧ o 5 = false ∧ o 6 = false ∧ o 7 = false := by
  rw [count_big_eq] at h
  cases h4 : o 4 <;> cases h5 : o 5 <;> cases h6 : o 6 <;> cases h7 : o 7 <;>
    simp_all

/-! ### Facts about the mask helpers -/

lemma next_zero_not_online (n : Nat) (o : Nat → Bool) :
    cpu_online (cpumask_next_zero n o) o = false := by
  unfold cpumask_next_zero
  cases hf : possible_cpus.find? (fun cpu => decide (n < cpu) && !(o cpu)) with
  | none => simp [cpu_online, nr_cpu_ids]
  | some c =>
    have hp := List.find?_some hf
    simp only [Bool.and_eq_true, Bool.not_eq_true', decide_eq_true_eq] at hp
    simp [cpu_online, hp.2]

lemma mem_possible_of_sel (cluster : Nat) (o : Nat → Bool) (c : Nat)
    (h : sel cluster o c = true) : c ∈ possible_cpus := by
  have hlt : c < nr_cpu_ids := by
    by_contra hge
    simp [sel, cpu_online, hge] at h
  simp only [nr_cpu_ids] at hlt
  simp only [possible_cpus, List.mem_cons]
  omega

lemma online_of_sel (cluster : Nat) (o : Nat → Bool) (c : Nat)
    (h : sel cluster o c = true) : cpu_online c o = true := by
  simp only [sel, Bool.and_eq_true] at h
  exact h.1.1

lemma cluster_of_sel (cluster : Nat) (o : Nat → Bool) (c : Nat)
    (h : sel cluster o c = true) : topology_physical_package_id c = cluster := by
  simp only [sel, Bool.and_eq_true, beq_iff_eq] at h
  exact h.1.2

lemma nonzero_of_sel (cluster : Nat) (o : Nat → Bool) (c : Nat)
    (h : sel cluster o c = true) : c ≠ 0 := by
  simp only [sel, Bool.and_eq_true, bne_iff_ne, ne_eq] at h
  exact h.2

/-! ### The sampling loop -/

lemma sample_step_not_sel (cluster : Nat) (o : Nat → Bool) (f : Nat → Nat)
    (acc : SampleResult) (cpu : Nat) (h : sel cluster o cpu = false) :
    sample_step cluster o f acc cpu = acc := by
  simp [sample_step, h]

lemma sample_step_take (cluster : Nat) (o : Nat → Bool) (f : Nat → Nat)
    (acc : SampleResult) (cpu : Nat) (h : sel cluster o cpu = true)
    (hle : f cpu ≤ acc.slow_rate) :
    sample_step cluster o f acc cpu =
      { acc with slow_cpu := cpu, slow_rate := f cpu } := by
  simp [sample_step, h, hle]

lemma sample_step_skip_slow (cluster : Nat) (o : Nat → Bool) (f : Nat → Nat)
    (acc : SampleResult) (cpu : Nat) (h : sel cluster o cpu = true)
    (hgt : ¬ f cpu ≤ acc.slow_rate) :
    (sample_step cluster o f acc cpu).slow_cpu = acc.slow_cpu ∧
    (sample_step cluster o f acc cpu).slow_rate = acc.slow_rate := by
  simp only [sample_step, h, if_true, if_neg hgt]
  split <;> exact ⟨rfl, rfl⟩

lemma sample_fold_slow (cluster : Nat) (o : Nat → Bool) (f : Nat → Nat) :
    ∀ (l : List Nat), List.Pairwise (· < ·) l → ∀ (acc : SampleResult),
      SlowInv cluster o f l acc (l.foldl (sample_step cluster o f) acc) := by
  intro l
  induction l with
  | nil =>
    intro _ acc
    exact Or.inl ⟨rfl, rfl, by simp⟩
  | cons x t ih =>
    intro hp acc
    rw [List.pairwise_cons] at hp
    obtain ⟨hx, hpt⟩ := hp
    rw [List.foldl_cons]
    by_cases hsel : sel cluster o x = true
    · by_cases hle : f x ≤ acc.slow_rate
      · rw [sample_step_take cluster o f acc x hsel hle]
        rcases ih hpt { acc with slow_cpu := x, slow_rate := f x } with h | h
        · obtain ⟨h1, h2, h3⟩ := h
          refine Or.inr ⟨by rw [h1]; exact hsel, by rw [h1]; exact List.mem_cons_self x t,
            by rw [h1, h2], by rw [h2]; exact hle, ?_, ?_⟩
          · intro c hc hcsel
            rcases List.mem_cons.mp hc with rfl | hct
            · rw [h2]
            · exact le_of_lt (by rw [h2]; exact h3 c hct hcsel)
          · intro c hc hcsel hlt
            rcases List.mem_cons.mp hc with rfl | hct
            · rw [h1] at hlt; exact absurd hlt (lt_irrefl c)
            · rw [h2]; exact h3 c hct hcsel
        · obtain ⟨h1, h2, h3, h4, h5, h6⟩ := h
          refine Or.inr ⟨h1, List.mem_cons_of_mem x h2, h3,
            le_trans h4 hle, ?_, ?_⟩
          · intro c hc hcsel
            rcases List.mem_cons.mp hc with rfl | hct
            · exact h4
            · exact h5 c hct hcsel
          · intro c hc hcsel hlt
            rcases List.mem_cons.mp hc with rfl | hct
            · exact absurd (lt_trans (hx _ h2) hlt) (lt_irrefl _)
            · exact h6 c hct hcsel hlt
      · obtain ⟨hc1, hc2⟩ := sample_step_skip_slow cluster o f acc x hsel hle
        rcases ih hpt (sample_step cluster o f acc x) with h | h
        · obtain ⟨h1, h2, h3⟩ := h
          refine Or.inl ⟨by rw [h1, hc1], by rw [h2, hc2], ?_⟩
          intro c hc hcsel
          rcases List.mem_cons.mp hc with rfl | hct
          · exact lt_of_not_le hle
          · rw [← hc2]; exact h3 c hct hcsel
        · obtain ⟨h1, h2, h3, h4, h5, h6⟩ := h
          rw [hc2] at h4
          refine Or.inr ⟨h1, List.mem_cons_of_mem x h2, h3, h4, ?_, ?_⟩
          · intro c hc hcsel
            rcases List.mem_cons.mp hc with rfl | hct
            · exact le_of_lt (lt_of_le_of_lt h4 (lt_of_not_le hle))
            · exact h5 c hct hcsel
          · intro c hc hcsel hlt
            rcases List.mem_cons.mp hc with rfl | hct
            · exact lt_of_le_of_lt h4 (lt_of_not_le hle)
            · exact h6 c hct hcsel hlt
    · rw [sample_step_not_sel cluster o f acc x (Bool.not_eq_true _ ▸ hsel)]
      rcases ih hpt acc with h | h
      · obtain ⟨h1, h2, h3⟩ := h
        refine Or.inl ⟨h1, h2, ?_⟩
        intro c hc hcsel
        rcases List.mem_cons.mp hc with rfl | hct
        · exact absurd hcsel (by simp_all)
        · exact h3 c hct hcsel
      · obtain ⟨h1, h2, h3, h4, h5, h6⟩ := h
        refine Or.inr ⟨h1, List.mem_cons_of_mem x h2, h3, h4, ?_, ?_⟩
        · intro c hc hcsel
          rcases List.mem_cons.mp hc with rfl | hct
          · exact absurd hcsel (by simp_all)
          · exact h5 c hct hcsel
        · intro c hc hcsel hlt
          rcases List.mem_cons.mp hc with rfl | hct
          · exact absurd hcsel (by simp_all)
          · exact h6 c hct hcsel hlt

lemma sample_pass_eq (cluster refCpu slow0 : Nat) (o : Nat → Bool)
    (f : Nat → Nat) :
    sample_pass cluster refCpu slow0 o f =
      if f refCpu < (sample_fold cluster slow0 (f refCpu) o f).slow_rate
      then { sample_fold cluster slow0 (f refCpu) o f with slow_rate := f refCpu }
      else sample_fold cluster slow0 (f refCpu) o f := rfl

lemma pairwise_possible : List.Pairwise (· < ·) possible_cpus := by decide

lemma sample_fold_spec (cluster slow0 refRate : Nat) (o : Nat → Bool)
    (f : Nat → Nat) :
    SlowInv cluster o f possible_cpus
      { slow_cpu := slow0, slow_rate := UINT_MAX, fast_rate := refRate }
      (sample_fold cluster slow0 refRate o f) :=
  sample_fold_slow cluster o f possible_cpus pairwise_possible _

lemma sample_fold_fast (cluster : Nat) (o : Nat → Bool) (f : Nat → Nat)
    (acc : SampleResult) :
    acc.fast_rate ≤ (possible_cpus.foldl (sample_step cluster o f) acc).fast_rate ∧
    ((possible_cpus.foldl (sample_step cluster o f) acc).fast_rate = acc.fast_rate ∨
      ∃ c ∈ possible_cpus, sel cluster o c = true ∧
        (possible_cpus.foldl (sample_step cluster o f) acc).fast_rate = f c) := by
  refine foldl_inv
    (fun r => acc.fast_rate ≤ r.fast_rate ∧
      (r.fast_rate = acc.fast_rate ∨
        ∃ c ∈ possible_cpus, sel cluster o c = true ∧ r.fast_rate = f c))
    (sample_step cluster o f) possible_cpus acc ⟨le_refl _, Or.inl rfl⟩ ?_
  intro x b2 hx hb2
  by_cases hsel : sel cluster o x = true
  · by_cases hle : f x ≤ b2.slow_rate
    · rw [sample_step_take cluster o f b2 x hsel hle]
      exact hb2
    · simp only [sample_step, hsel, if_true, if_neg hle]
      split
      · rename_i hgt
        simp only [gt_iff_lt] at hgt
        exact ⟨le_of_lt (lt_of_le_of_lt hb2.1 hgt), Or.inr ⟨x, hx, hsel, rfl⟩⟩
      · exact hb2
  · rw [sample_step_not_sel cluster o f b2 x (Bool.not_eq_true _ ▸ hsel)]
    exact hb2

lemma sample_fold_slow_cpu (cluster : Nat) (o : Nat → Bool) (f : Nat → Nat)
    (acc : SampleResult) :
    (possible_cpus.foldl (sample_step cluster o f) acc).slow_cpu = acc.slow_cpu ∨
    ((possible_cpus.foldl (sample_step cluster o f) acc).slow_cpu ∈ possible_cpus ∧
      sel cluster o (possible_cpus.foldl (sample_step cluster o f) acc).slow_cpu = true) := by
  refine foldl_inv
    (fun r => r.slow_cpu = acc.slow_cpu ∨
      (r.slow_cpu ∈ possible_cpus ∧ sel cluster o r.slow_cpu = true))
    (sample_step cluster o f) possible_cpus acc (Or.inl rfl) ?_
  intro x b2 hx hb2
  by_cases hsel : sel cluster o x = true
  · by_cases hle : f x ≤ b2.slow_rate
    · rw [sample_step_take cluster o f b2 x hsel hle]
      exact Or.inr ⟨hx, hsel⟩
    · rw [(sample_step_skip_slow cluster o f b2 x hsel hle).1]
      exact hb2
  · rw [sample_step_not_sel cluster o f b2 x (Bool.not_eq_true _ ▸ hsel)]
    exact hb2

lemma sample_pass_slow_cpu_eq (cluster refCpu slow0 : Nat) (o : Nat → Bool)
    (f : Nat → Nat) :
    (sample_pass cluster refCpu slow0 o f).slow_cpu =
      (sample_fold cluster slow0 (f refCpu) o f).slow_cpu := by
  rw [sample_pass_eq]
  split <;> rfl

lemma sample_pass_fast_eq (cluster refCpu slow0 : Nat) (o : Nat → Bool)
    (f : Nat → Nat) :
    (sample_pass cluster refCpu slow0 o f).fast_rate =
      (sample_fold cluster slow0 (f refCpu) o f).fast_rate := by
  rw [sample_pass_eq]
  split <;> rfl

lemma sample_pass_slow_cpu_range (cluster refCpu slow0 : Nat) (o : Nat → Bool)
    (f : Nat → Nat) :
    (sample_pass cluster refCpu slow0 o f).slow_cpu = slow0 ∨
    ((sample_pass cluster refCpu slow0 o f).slow_cpu ∈ possible_cpus ∧
      sel cluster o (sample_pass cluster refCpu slow0 o f).slow_cpu = true) := by
  rw [sample_pass_slow_cpu_eq]
  exact sample_fold_slow_cpu cluster o f _

/-! ### The decision block -/

lemma engine_no_down0 (upR downR cycUp cycDownEff minC nzStart : Nat)
    (smp : SampleResult) (nr : Nat) (o : Nat → Bool) (cycle : Nat) :
    Event.down 0 ∉
      (engine_step upR downR cycUp cycDownEff minC nzStart smp nr o cycle).2.2 := by
  simp only [engine_step]
  split_ifs with h1 h2 h3 h4 h5 h6 <;> simp_all
  omega

lemma engine_no_up (upR downR cycUp cycDownEff minC nzStart : Nat)
    (smp : SampleResult) (nr : Nat) (o : Nat → Bool) (cycle : Nat)
    (h : ¬ upR < smp.slow_rate) (c : Nat) :
    Event.up c ∉
      (engine_step upR downR cycUp cycDownEff minC nzStart smp nr o cycle).2.2 := by
  simp only [engine_step]
  split_ifs <;> simp_all

lemma engine_no_down (upR downR cycUp cycDownEff minC nzStart : Nat)
    (smp : SampleResult) (nr : Nat) (o : Nat → Bool) (cycle : Nat)
    (h : ¬ smp.fast_rate < downR) (c : Nat) :
    Event.down c ∉
      (engine_step upR downR cycUp cycDownEff minC nzStart smp nr o cycle).2.2 := by
  simp only [engine_step]
  split_ifs <;> simp_all

lemma engine_cycle (upR downR cycUp cycDownEff minC nzStart : Nat)
    (smp : SampleResult) (nr : Nat) (o : Nat → Bool) (cycle : Nat) :
    (engine_step upR downR cycUp cycDownEff minC nzStart smp nr o cycle).2.1 = 0 ∨
    (engine_step upR downR cycUp cycDownEff minC nzStart smp nr o cycle).2.1 = cycle := by
  simp only [engine_step]
  split_ifs <;> simp

lemma engine_act (upR downR cycUp cycDownEff minC nzStart : Nat)
    (smp : SampleResult) (nr : Nat) (o : Nat → Bool) (cycle : Nat) :
    (engine_step upR downR cycUp cycDownEff minC nzStart smp nr o cycle).2.2 ≠ [] →
    (engine_step upR downR cycUp cycDownEff minC nzStart smp nr o cycle).2.1 = 0 := by
  simp only [engine_step]
  split_ifs <;> simp

lemma engine_empty (upR downR cycUp cycDownEff minC nzStart : Nat)
    (smp : SampleResult) (nr : Nat) (o : Nat → Bool) (cycle : Nat)
    (hemit : smp.slow_cpu ≠ 0 → cpu_online smp.slow_cpu o = true) :
    (engine_step upR downR cycUp cycDownEff minC nzStart smp nr o cycle).2.2 = [] →
      (engine_step upR downR cycUp cycDownEff minC nzStart smp nr o cycle).1 = o ∧
      (engine_step upR downR cycUp cycDownEff minC nzStart smp nr o cycle).2.1 = cycle := by
  simp only [engine_step]
  split_ifs with h1 h2 h3 h4 h5 h6
  · exact absurd h3 (by rw [next_zero_not_online]; simp)
  · simp
  · exact fun _ => ⟨rfl, rfl⟩
  · simp
  · exact absurd (hemit h4.1) h6
  · exact fun _ => ⟨rfl, rfl⟩
  · exact fun _ => ⟨rfl, rfl⟩

lemma engine_up_cycle (upR downR cycUp cycDownEff minC nzStart : Nat)
    (smp : SampleResult) (nr : Nat) (o : Nat → Bool) (cycle : Nat) (c : Nat) :
    Event.up c ∈
        (engine_step upR downR cycUp cycDownEff minC nzStart smp nr o cycle).2.2 →
      cycUp ≤ cycle := by
  simp only [engine_step]
  split_ifs with h1 h2 h3 h4 h5 h6 <;> simp_all

lemma engine_down_cycle (upR downR cycUp cycDownEff minC nzStart : Nat)
    (smp : SampleResult) (nr : Nat) (o : Nat → Bool) (cycle : Nat) (c : Nat) :
    Event.down c ∈
        (engine_step upR downR cycUp cycDownEff minC nzStart smp nr o cycle).2.2 →
      cycDownEff ≤ cycle := by
  simp only [engine_step]
  split_ifs with h1 h2 h3 h4 h5 h6 <;> simp_all

lemma engine_up_fires (upR downR cycUp cycDownEff minC nzStart : Nat)
    (smp : SampleResult) (nr : Nat) (o : Nat → Bool) (cycle : Nat)
    (h1 : upR < smp.slow_rate) (h2 : nr < MAX_CPU_PER_CLUSTERS)
    (h3 : cycUp ≤ cycle) :
    (engine_step upR downR cycUp cycDownEff minC nzStart smp nr o cycle).2.2 =
      [Event.up (cpumask_next_zero nzStart o)] := by
  have hno : cpu_online (cpumask_next_zero nzStart o) o = false :=
    next_zero_not_online nzStart o
  simp [engine_step, hno, h1, h2, h3]

/-! ### Which cpu a scale-up picks, and how counts change -/

lemma next_zero_little (o : Nat → Bool)
    (hlt : num_online_cluster_cpus CLUSTER_LITTLE o < 4) (h0 : o 0 = true) :
    cpumask_next_zero 0 o ∈ [1, 2, 3] ∧ o (cpumask_next_zero 0 o) = false := by
  rw [count_little_eq, h0] at hlt
  cases h1 : o 1 <;> cases h2 : o 2 <;> cases h3 : o 3 <;>
    simp_all [cpumask_next_zero, possible_cpus, List.find?]

lemma next_zero_big (o : Nat → Bool)
    (hlt : num_online_cluster_cpus CLUSTER_BIG o < 4) :
    cpumask_next_zero 3 o ∈ [4, 5, 6, 7] ∧ o (cpumask_next_zero 3 o) = false := by
  rw [count_big_eq] at hlt
  cases h4 : o 4 <;> cases h5 : o 5 <;> cases h6 : o 6 <;> cases h7 : o 7 <;>
    simp_all [cpumask_next_zero, possible_cpus, List.find?]

lemma count_up_little (o : Nat → Bool) (c : Nat) (hc : c ∈ [1, 2, 3])
    (hoff : o c = false) :
    num_online_cluster_cpus CLUSTER_LITTLE (cpu_up_state c o) =
      num_online_cluster_cpus CLUSTER_LITTLE o + 1 ∧
    num_online_cluster_cpus CLUSTER_BIG (cpu_up_state c o) =
      num_online_cluster_cpus CLUSTER_BIG o := by
  simp only [List.mem_cons, List.mem_singleton, List.not_mem_nil, or_false] at hc
  rcases hc with rfl | rfl | rfl <;>
    · rw [count_little_eq, count_little_eq, count_big_eq, count_big_eq]
      simp [cpu_up_state, nr_cpu_ids, Function.update, hoff]
      try omega

lemma count_down_little (o : Nat → Bool) (c : Nat) (hc : c ∈ [1, 2, 3])
    (hon : o c = true) :
    num_online_cluster_cpus CLUSTER_LITTLE (cpu_down_state c o) + 1 =
      num_online_cluster_cpus CLUSTER_LITTLE o ∧
    num_online_cluster_cpus CLUSTER_BIG (cpu_down_state c o) =
      num_online_cluster_cpus CLUSTER_BIG o := by
  simp only [List.mem_cons, List.mem_singleton, List.not_mem_nil, or_false] at hc
  rcases hc with rfl | rfl | rfl <;>
    · rw [count_little_eq, count_little_eq, count_big_eq, count_big_eq]
      simp [cpu_down_state, nr_cpu_ids, Function.update, hon]
      try omega

lemma count_up_big (o : Nat → Bool) (c : Nat) (hc : c ∈ [4, 5, 6, 7])
    (hoff : o c = false) :
    num_online_cluster_cpus CLUSTER_BIG (cpu_up_state c o) =
      num_online_cluster_cpus CLUSTER_BIG o + 1 ∧
    num_online_cluster_cpus CLUSTER_LITTLE (cpu_up_state c o) =
      num_online_cluster_cpus CLUSTER_LITTLE o := by
  simp only [List.mem_cons, List.mem_singleton, List.not_mem_nil, or_false] at hc
  rcases hc with rfl | rfl | rfl | rfl <;>
    · rw [count_little_eq, count_little_eq, count_big_eq, count_big_eq]
      simp [cpu_up_state, nr_cpu_ids, Function.update, hoff]
      try omega

lemma count_down_big (o : Nat → Bool) (c : Nat) (hc : c ∈ [4, 5, 6, 7])
    (hon : o c = true) :
    num_online_cluster_cpus CLUSTER_BIG (cpu_down_state c o) + 1 =
      num_online_cluster_cpus CLUSTER_BIG o ∧
    num_online_cluster_cpus CLUSTER_LITTLE (cpu_down_state c o) =
      num_online_cluster_cpus CLUSTER_LITTLE o := by
  simp only [List.mem_cons, List.mem_singleton, List.not_mem_nil, or_false] at hc
  rcases hc with rfl | rfl | rfl | rfl <;>
    · rw [count_little_eq, count_little_eq, count_big_eq, count_big_eq]
      simp [cpu_down_state, nr_cpu_ids, Function.update, hon]
      try omega

lemma online_of_cpu_online (c : Nat) (o : Nat → Bool)
    (h : cpu_online c o = true) : o c = true := by
  simp only [cpu_online, Bool.and_eq_true, decide_eq_true_eq] at h
  exact h.2

lemma little_slow_mem (smp : SampleResult)
    (hslow : smp.slow_cpu = 0 ∨
      topology_physical_package_id smp.slow_cpu = CLUSTER_LITTLE ∧
        smp.slow_cpu ∈ possible_cpus)
    (hne : smp.slow_cpu ≠ 0) : smp.slow_cpu ∈ [1, 2, 3] := by
  rcases hslow with h | ⟨htop, hmem⟩
  · exact absurd h hne
  · simp only [possible_cpus, List.mem_cons, List.not_mem_nil, or_false] at hmem
    simp only [topology_physical_package_id, CLUSTER_LITTLE] at htop
    simp only [List.mem_cons, List.mem_singleton, List.not_mem_nil, or_false]
    omega

lemma big_slow_mem (smp : SampleResult)
    (hslow : topology_physical_package_id smp.slow_cpu = CLUSTER_BIG ∧
      smp.slow_cpu ∈ possible_cpus) : smp.slow_cpu ∈ [4, 5, 6, 7] := by
  obtain ⟨htop, hmem⟩ := hslow
  simp only [possible_cpus, List.mem_cons, List.not_mem_nil, or_false] at hmem
  simp only [topology_physical_package_id, CLUSTER_BIG] at htop
  simp only [List.mem_cons, List.mem_singleton, List.not_mem_nil, or_false]
  omega

lemma engine_counts_little (upR downR cycUp cycDownEff minC : Nat)
    (smp : SampleResult) (nr : Nat) (o : Nat → Bool) (cycle : Nat)
    (hnr : nr = num_online_cluster_cpus CLUSTER_LITTLE o)
    (h0 : o 0 = true)
    (hslow : smp.slow_cpu = 0 ∨
      topology_physical_package_id smp.slow_cpu = CLUSTER_LITTLE ∧
        smp.slow_cpu ∈ possible_cpus) :
    (minC ≤ nr →
      minC ≤ num_online_cluster_cpus CLUSTER_LITTLE
        (engine_step upR downR cycUp cycDownEff minC 0 smp nr o cycle).1) ∧
    num_online_cluster_cpus CLUSTER_BIG
        (engine_step upR downR cycUp cycDownEff minC 0 smp nr o cycle).1 =
      num_online_cluster_cpus CLUSTER_BIG o := by
  simp only [engine_step]
  split_ifs with h1 h2 h3 h4 h5 h6
  · exact ⟨fun h => by rw [← hnr]; exact h, rfl⟩
  · have hlt : num_online_cluster_cpus CLUSTER_LITTLE o < 4 := by
      have := h2.1
      rw [hnr] at this
      simpa [MAX_CPU_PER_CLUSTERS] using this
    obtain ⟨hmem, hoff⟩ := next_zero_little o hlt h0
    have hcount := count_up_little o _ hmem hoff
    refine ⟨fun h => ?_, hcount.2⟩
    rw [hcount.1, hnr] at *
    omega
  · exact ⟨fun h => by rw [← hnr]; exact h, rfl⟩
  · have hmem := little_slow_mem smp hslow h4.1
    have hon := online_of_cpu_online _ o h6
    have hcount := count_down_little o _ hmem hon
    refine ⟨fun _ => ?_, hcount.2⟩
    have h5' := h5.1
    rw [hnr] at h5'
    dsimp only
    omega
  · exact ⟨fun h => by rw [← hnr]; exact h, rfl⟩
  · exact ⟨fun h => by rw [← hnr]; exact h, rfl⟩
  · exact ⟨fun h => by rw [← hnr]; exact h, rfl⟩

lemma engine_counts_big (upR downR cycUp cycDownEff minC : Nat)
    (smp : SampleResult) (nr : Nat) (o : Nat → Bool) (cycle : Nat)
    (hnr : nr = num_online_cluster_cpus CLUSTER_BIG o)
    (hslow : topology_physical_package_id smp.slow_cpu = CLUSTER_BIG ∧
      smp.slow_cpu ∈ possible_cpus) :
    (minC ≤ nr →
      minC ≤ num_online_cluster_cpus CLUSTER_BIG
        (engine_step upR downR cycUp cycDownEff minC 3 smp nr o cycle).1) ∧
    num_online_cluster_cpus CLUSTER_LITTLE
        (engine_step upR downR cycUp cycDownEff minC 3 smp nr o cycle).1 =
      num_online_cluster_cpus CLUSTER_LITTLE o := by
  simp only [engine_step]
  split_ifs with h1 h2 h3 h4 h5 h6
  · exact ⟨fun h => by rw [← hnr]; exact h, rfl⟩
  · have hlt : num_online_cluster_cpus CLUSTER_BIG o < 4 := by
      have := h2.1
      rw [hnr] at this
      simpa [MAX_CPU_PER_CLUSTERS] using this
    obtain ⟨hmem, hoff⟩ := next_zero_big o hlt
    have hcount := count_up_big o _ hmem hoff
    refine ⟨fun h => ?_, hcount.2⟩
    rw [hcount.1, hnr] at *
    omega
  · exact ⟨fun h => by rw [← hnr]; exact h, rfl⟩
  · have hmem := big_slow_mem smp hslow
    have hon := online_of_cpu_online _ o h6
    have hcount := count_down_big o _ hmem hon
    refine ⟨fun _ => ?_, hcount.2⟩
    have h5' := h5.1
    rw [hnr] at h5'
    dsimp only
    omega
  · exact ⟨fun h => by rw [← hnr]; exact h, rfl⟩
  · exact ⟨fun h => by rw [← hnr]; exact h, rfl⟩
  · exact ⟨fun h => by rw [← hnr]; exact h, rfl⟩

/-! ### The HMP trade-down -/

lemma get_online_little_1 (o : Nat → Bool) (h1 : o 1 = true) :
    get_online_core CLUSTER_LITTLE o = 1 := by
  simp [get_online_core, possible_cpus, List.find?, cpu_online,
    topology_physical_package_id, CLUSTER_LITTLE, nr_cpu_ids, h1]

lemma get_online_little_2 (o : Nat → Bool) (h1 : o 1 = false) (h2 : o 2 = true) :
    get_online_core CLUSTER_LITTLE o = 2 := by
  simp [get_online_core, possible_cpus, List.find?, cpu_online,
    topology_physical_package_id, CLUSTER_LITTLE, nr_cpu_ids, h1, h2]

lemma get_offline_big_4 (o : Nat → Bool) (h4 : o 4 = false) :
    get_offline_core CLUSTER_BIG o = 4 := by
  simp [get_offline_core, possible_cpus, List.find?, cpu_online,
    topology_physical_package_id, CLUSTER_BIG, nr_cpu_ids, h4]

lemma trade_down_concrete (o : Nat → Bool) (h1 : o 1 = true) (h2 : o 2 = true) :
    (trade_down_loop 4 o).2 = [Event.down 1, Event.down 2] ∧
    (trade_down_loop 4 o).1 = cpu_down_state 2 (cpu_down_state 1 o) := by
  have e1 : get_online_core CLUSTER_LITTLE o = 1 := get_online_little_1 o h1
  have hd1 : (cpu_down_state 1 o) 1 = false := by
    simp [cpu_down_state, nr_cpu_ids, Function.update]
  have hd2 : (cpu_down_state 1 o) 2 = true := by
    simp [cpu_down_state, nr_cpu_ids, Function.update, h2]
  have e2 : get_online_core CLUSTER_LITTLE (cpu_down_state 1 o) = 2 :=
    get_online_little_2 _ hd1 hd2
  constructor <;> simp [trade_down_loop, e1, e2]

lemma mask_bit_up (c j : Nat) (o : Nat → Bool) (hc : c < 8) :
    cpu_up_state c o j = if j = c then true else o j := by
  simp only [cpu_up_state, nr_cpu_ids, if_pos hc, Function.update]
  split <;> simp_all

lemma mask_bit_down (c j : Nat) (o : Nat → Bool) (hc : c < 8) :
    cpu_down_state c o j = if j = c then false else o j := by
  simp only [cpu_down_state, nr_cpu_ids, if_pos hc, Function.update]
  split <;> simp_all

/-- The complete effect of the trade-down branch (autosmp.c lines
219-227) on a state with all four little cores online and all four big
cores offline. -/
lemma hmp_trade_effect (o : Nat → Bool)
    (h0 : o 0 = true) (h1 : o 1 = true) (h2 : o 2 = true) (h3 : o 3 = true)
    (h4 : o 4 = false) (h5 : o 5 = false) (h6 : o 6 = false) (h7 : o 7 = false) :
    (trade_down_loop 4 (cpu_up_state (get_offline_core CLUSTER_BIG o) o)).2 =
      [Event.down 1, Event.down 2] ∧
    get_offline_core CLUSTER_BIG o = 4 ∧
    num_online_cluster_cpus CLUSTER_LITTLE
      (trade_down_loop 4 (cpu_up_state (get_offline_core CLUSTER_BIG o) o)).1 = 2 ∧
    num_online_cluster_cpus CLUSTER_BIG
      (trade_down_loop 4 (cpu_up_state (get_offline_core CLUSTER_BIG o) o)).1 = 1 ∧
    (trade_down_loop 4 (cpu_up_state (get_offline_core CLUSTER_BIG o) o)).1 0 = true ∧
    (trade_down_loop 4 (cpu_up_state (get_offline_core CLUSTER_BIG o) o)).1 3 = true := by
  have he : get_offline_core CLUSTER_BIG o = 4 := get_offline_big_4 o h4
  rw [he]
  have hu1 : (cpu_up_state 4 o) 1 = true := by rw [mask_bit_up 4 1 o (by omega)]; simp [h1]
  have hu2 : (cpu_up_state 4 o) 2 = true := by rw [mask_bit_up 4 2 o (by omega)]; simp [h2]
  obtain ⟨htr, hst⟩ := trade_down_concrete (cpu_up_state 4 o) hu1 hu2
  refine ⟨htr, rfl, ?_, ?_, ?_, ?_⟩ <;> rw [hst]
  · rw [count_little_eq]
    simp [mask_bit_down, mask_bit_up, h0, h3]
  · rw [count_big_eq]
    simp [mask_bit_down, mask_bit_up, h5, h6, h7]
  · simp [mask_bit_down, mask_bit_up, h0]
  · simp [mask_bit_down, mask_bit_up, h3]

/-! ### Sampler-derived facts the tick proofs need -/

lemma get_online_core_big_sel (o : Nat → Bool)
    (h : num_online_cluster_cpus CLUSTER_BIG o ≠ 0) :
    sel CLUSTER_BIG o (get_online_core CLUSTER_BIG o) = true ∧
    get_online_core CLUSTER_BIG o ∈ possible_cpus := by
  rw [count_big_eq] at h
  cases h4 : o 4 <;> cases h5 : o 5 <;> cases h6 : o 6 <;> cases h7 : o 7 <;>
    simp_all [get_online_core, possible_cpus, List.find?, sel, cpu_online,
      topology_physical_package_id, CLUSTER_BIG, nr_cpu_ids]

lemma sample_pass_assigned (cluster refCpu slow0 : Nat) (o : Nat → Bool)
    (f : Nat → Nat) (hf : ∀ c, f c ≤ UINT_MAX)
    (c0 : Nat) (hc0 : c0 ∈ possible_cpus) (hsel : sel cluster o c0 = true) :
    sel cluster o (sample_pass cluster refCpu slow0 o f).slow_cpu = true := by
  rcases sample_fold_spec cluster slow0 (f refCpu) o f with h | h
  · have hlt := h.2.2 c0 hc0 hsel
    dsimp only at hlt
    exact absurd hlt (by have := hf c0; omega)
  · rw [sample_pass_slow_cpu_eq]
    exact h.1

lemma sample_pass_little_emit (refCpu : Nat) (o : Nat → Bool) (f : Nat → Nat) :
    (sample_pass CLUSTER_LITTLE refCpu 0 o f).slow_cpu ≠ 0 →
      cpu_online (sample_pass CLUSTER_LITTLE refCpu 0 o f).slow_cpu o = true := by
  intro hne
  rcases sample_pass_slow_cpu_range CLUSTER_LITTLE refCpu 0 o f with h | h
  · exact absurd h hne
  · exact online_of_sel _ _ _ h.2

lemma sample_pass_little_slowclus (refCpu : Nat) (o : Nat → Bool) (f : Nat → Nat) :
    (sample_pass CLUSTER_LITTLE refCpu 0 o f).slow_cpu = 0 ∨
      topology_physical_package_id
          (sample_pass CLUSTER_LITTLE refCpu 0 o f).slow_cpu = CLUSTER_LITTLE ∧
        (sample_pass CLUSTER_LITTLE refCpu 0 o f).slow_cpu ∈ possible_cpus := by
  rcases sample_pass_slow_cpu_range CLUSTER_LITTLE refCpu 0 o f with h | h
  · exact Or.inl h
  · exact Or.inr ⟨cluster_of_sel _ _ _ h.2, h.1⟩

lemma sample_pass_big_slowclus (refCpu : Nat) (o : Nat → Bool) (f : Nat → Nat) :
    topology_physical_package_id
        (sample_pass CLUSTER_BIG refCpu 4 o f).slow_cpu = CLUSTER_BIG ∧
      (sample_pass CLUSTER_BIG refCpu 4 o f).slow_cpu ∈ possible_cpus := by
  rcases sample_pass_slow_cpu_range CLUSTER_BIG refCpu 4 o f with h | h
  · rw [h]
    exact ⟨rfl, by simp [possible_cpus]⟩
  · exact ⟨cluster_of_sel _ _ _ h.2, h.1⟩

lemma sample_pass_big_emit (o : Nat → Bool) (f : Nat → Nat)
    (hf : ∀ c, f c ≤ UINT_MAX)
    (hB : num_online_cluster_cpus CLUSTER_BIG o ≠ 0) :
    cpu_online
      (sample_pass CLUSTER_BIG (get_online_core CLUSTER_BIG o) 4 o f).slow_cpu
      o = true := by
  obtain ⟨hsel, hmem⟩ := get_online_core_big_sel o hB
  exact online_of_sel _ _ _
    (sample_pass_assigned CLUSTER_BIG _ 4 o f hf _ hmem hsel)

/-! ### HMP-handler facts -/

lemma hmp_counts (p : AsmpParam) (maxFreq freq : Nat → Nat) (o : Nat → Bool)
    (cycle : Nat) (hmin2 : p.min_cpus ≤ 2)
    (hL : p.min_cpus ≤ num_online_cluster_cpus CLUSTER_LITTLE o)
    (hB : p.min_cpus_hmp ≤ num_online_cluster_cpus CLUSTER_BIG o) :
    p.min_cpus ≤ num_online_cluster_cpus CLUSTER_LITTLE
        (hmp_handler p maxFreq freq o cycle).1 ∧
    p.min_cpus_hmp ≤ num_online_cluster_cpus CLUSTER_BIG
        (hmp_handler p maxFreq freq o cycle).1 := by
  simp only [hmp_handler]
  split_ifs with hz hge
  · have h4 : num_online_cluster_cpus CLUSTER_LITTLE o = 4 :=
      le_antisymm (count_little_le o) (by simpa [MAX_CPU_PER_CLUSTERS] using hge)
    obtain ⟨ha, hb, hc, hd⟩ := count_little_all o (by omega)
    obtain ⟨he, hf, hg, hh⟩ := count_big_zero o (by simpa using hz)
    have heff := hmp_trade_effect o ha hb hc hd he hf hg hh
    rw [h4]
    dsimp only
    rw [heff.2.2.1, heff.2.2.2.1]
    constructor
    · omega
    · have : num_online_cluster_cpus CLUSTER_BIG o = 0 := by simpa using hz
      omega
  · exact ⟨hL, hB⟩
  · have hcb := engine_counts_big (up_rate p maxFreq CLUSTER_BIG)
      (down_rate p maxFreq CLUSTER_BIG) p.cycle_up (u32 (p.cycle_down * 3))
      p.min_cpus_hmp
      (sample_pass CLUSTER_BIG (get_online_core CLUSTER_BIG o) 4 o freq)
      (num_online_cluster_cpus CLUSTER_BIG o) o cycle rfl
      (sample_pass_big_slowclus _ o freq)
    exact ⟨by rw [hcb.2]; exact hL, hcb.1 hB⟩

lemma hmp_cycle (p : AsmpParam) (maxFreq freq : Nat → Nat) (o : Nat → Bool)
    (cycle : Nat) :
    (hmp_handler p maxFreq freq o cycle).2.1 = 0 ∨
    (hmp_handler p maxFreq freq o cycle).2.1 = cycle := by
  simp only [hmp_handler]
  split_ifs with hz hge
  · exact Or.inr rfl
  · exact Or.inr rfl
  · exact engine_cycle _ _ _ _ _ _ _ _ _ _

lemma hmp_empty (p : AsmpParam) (maxFreq freq : Nat → Nat) (o : Nat → Bool)
    (cycle : Nat) (hf : ∀ c, freq c ≤ UINT_MAX) :
    (hmp_handler p maxFreq freq o cycle).2.2 = [] →
      (hmp_handler p maxFreq freq o cycle).1 = o ∧
      (hmp_handler p maxFreq freq o cycle).2.1 = cycle := by
  simp only [hmp_handler]
  split_ifs with hz hge
  · intro h
    exact absurd h (by simp)
  · exact fun _ => ⟨rfl, rfl⟩
  · refine engine_empty _ _ _ _ _ _ _ _ _ _ ?_
    intro _
    exact sample_pass_big_emit o freq hf (by simpa using hz)

lemma hmp_no_down0 (p : AsmpParam) (maxFreq freq : Nat → Nat) (o : Nat → Bool)
    (cycle : Nat) :
    Event.down 0 ∉ (hmp_handler p maxFreq freq o cycle).2.2 := by
  simp only [hmp_handler]
  split_ifs with hz hge
  · have h4 : num_online_cluster_cpus CLUSTER_LITTLE o = 4 :=
      le_antisymm (count_little_le o) (by simpa [MAX_CPU_PER_CLUSTERS] using hge)
    obtain ⟨ha, hb, hc, hd⟩ := count_little_all o (by omega)
    obtain ⟨he, hf, hg, hh⟩ := count_big_zero o (by simpa using hz)
    have heff := hmp_trade_effect o ha hb hc hd he hf hg hh
    rw [h4]
    dsimp only
    rw [heff.1]
    simp
  · simp
  · exact engine_no_down0 _ _ _ _ _ _ _ _ _ _

lemma hmp_act (p : AsmpParam) (maxFreq freq : Nat → Nat) (o : Nat → Bool)
    (cycle : Nat) :
    (hmp_handler p maxFreq freq o cycle).2.1 ≠ 0 →
      (hmp_handler p maxFreq freq o cycle).2.2 = [] ∨
      (hmp_handler p maxFreq freq o cycle).2.2 =
        [Event.up 4, Event.down 1, Event.down 2] := by
  simp only [hmp_handler]
  split_ifs with hz hge
  · intro _
    right
    have h4 : num_online_cluster_cpus CLUSTER_LITTLE o = 4 :=
      le_antisymm (count_little_le o) (by simpa [MAX_CPU_PER_CLUSTERS] using hge)
    obtain ⟨ha, hb, hc, hd⟩ := count_little_all o (by omega)
    obtain ⟨he, hf, hg, hh⟩ := count_big_zero o (by simpa using hz)
    have heff := hmp_trade_effect o ha hb hc hd he hf hg hh
    rw [h4]
    dsimp only
    have hoff4 := heff.2.1
    rw [hoff4] at heff
    rw [hoff4, heff.1]
  · intro _
    left
    rfl
  · intro hne
    left
    by_contra htr
    exact hne (engine_act _ _ _ _ _ _ _ _ _ _ htr)

/-! ### The suspend unplug loop -/

lemma susp_fold_spec :
    ∀ (l : List Nat), List.Pairwise (· ≠ ·) l → ∀ (o : Nat → Bool) (tr : List Event),
      (l.foldl susp_step (o, tr)).2 =
        tr ++ (l.filter (fun c => cpu_online c o && !(c == 0))).map Event.down ∧
      ∀ j, (l.foldl susp_step (o, tr)).1 j =
        if j ∈ l ∧ j ≠ 0 ∧ j < nr_cpu_ids then false else o j := by
  intro l
  induction l with
  | nil =>
    intro _ o tr
    exact ⟨by simp, fun j => by simp⟩
  | cons x t ih =>
    intro hp o tr
    rw [List.pairwise_cons] at hp
    obtain ⟨hx, hpt⟩ := hp
    rw [List.foldl_cons]
    by_cases hskip : (!(cpu_online x o) || x == 0) = true
    · have hstep : susp_step (o, tr) x = (o, tr) := by
        simp [susp_step, hskip]
      rw [hstep]
      obtain ⟨htr, hmask⟩ := ih hpt o tr
      have hpx : (cpu_online x o && !(x == 0)) = false := by
        cases hco : cpu_online x o <;> cases hxz : (x == 0 : Bool) <;> simp_all
      constructor
      · rw [htr]
        congr 2
        simp [List.filter_cons, hpx]
      · intro j
        rw [hmask j]
        by_cases hj : j = x
        · subst hj
          have hnt : j ∉ t := fun hmem => (hx j hmem) rfl
          have hskip2 : cpu_online j o = false ∨ j = 0 := by simpa using hskip
          rcases hskip2 with hno' | hz'
          · by_cases hj8 : j < nr_cpu_ids
            · have hoj : o j = false := by
                have := hno'
                simp [cpu_online, hj8] at this
                exact this
              simp only [hnt, false_and, if_false, hoj]
              split_ifs <;> simp [hoj]
            · simp only [hnt, false_and, if_false]
              split_ifs with hcond
              · exact absurd hcond.2.2 hj8
              · rfl
          · simp [hnt, hz']
        · have hmem : j ∈ x :: t ↔ j ∈ t := by simp [List.mem_cons, hj]
          simp only [hmem]
    · have hon : cpu_online x o = true ∧ (x == 0) = false := by
        cases hco : cpu_online x o <;> cases hxz : (x == 0 : Bool) <;> simp_all
      have hstep : susp_step (o, tr) x = (cpu_down_state x o, tr ++ [Event.down x]) := by
        simp [susp_step, hon.1, hon.2]
      rw [hstep]
      obtain ⟨htr, hmask⟩ := ih hpt (cpu_down_state x o) (tr ++ [Event.down x])
      have hx8 : x < nr_cpu_ids := by
        have := hon.1
        simp only [cpu_online, Bool.and_eq_true, decide_eq_true_eq] at this
        exact this.1
      have hxz : x ≠ 0 := by simpa using hon.2
      constructor
      · rw [htr]
        have hfeq : t.filter (fun c => cpu_online c (cpu_down_state x o) && !(c == 0)) =
            t.filter (fun c => cpu_online c o && !(c == 0)) := by
          apply List.filter_congr
          intro a ha
          have hax : a ≠ x := fun h => (hx a ha) h.symm
          rw [cpu_online, cpu_online, mask_bit_down x a o hx8, if_neg hax]
        rw [hfeq]
        simp [List.filter_cons, hon.1, hon.2]
      · intro j
        rw [hmask j]
        by_cases hj : j = x
        · subst hj
          have hnt : j ∉ t := fun hmem => (hx j hmem) rfl
          have hdj : cpu_down_state j o j = false := by
            rw [mask_bit_down j j o hx8]
            simp
          simp only [hnt, false_and, if_false, hdj]
          have : j ∈ j :: t ∧ j ≠ 0 ∧ j < nr_cpu_ids :=
            ⟨List.mem_cons_self j t, hxz, hx8⟩
          rw [if_pos this]
        · have hdj : cpu_down_state x o j = o j := by
            rw [mask_bit_down x j o hx8, if_neg hj]
          have hmem : j ∈ x :: t ↔ j ∈ t := by simp [List.mem_cons, hj]
          simp only [hmem, hdj]

lemma asmp_suspend_trace (enabled : Bool) (s : AsmpState) :
    (asmp_suspend enabled s).2 =
      (((List.range (nr_cpu_ids + 1)).reverse).filter
        (fun c => cpu_online c s.online && !(c == 0))).map Event.down ++
      (if enabled then [Event.cancelTick] else []) := by
  have hp : List.Pairwise (· ≠ ·) ((List.range (nr_cpu_ids + 1)).reverse) := by
    decide
  obtain ⟨htr, _⟩ := susp_fold_spec _ hp s.online []
  simp only [asmp_suspend]
  split_ifs with hen
  · subst hen
    dsimp only
    rw [htr]
    simp only [List.nil_append, if_pos rfl]
  · simp only [Bool.not_eq_true] at hen
    subst hen
    dsimp only
    rw [htr]
    simp

lemma asmp_suspend_mask (enabled : Bool) (s : AsmpState) (c : Nat) :
    cpu_online c (asmp_suspend enabled s).1.online =
      (decide (c = 0) && cpu_online c s.online) := by
  have hp : List.Pairwise (· ≠ ·) ((List.range (nr_cpu_ids + 1)).reverse) := by
    decide
  obtain ⟨_, hmask⟩ := susp_fold_spec _ hp s.online []
  have honline : (asmp_suspend enabled s).1.online =
      (((List.range (nr_cpu_ids + 1)).reverse).foldl susp_step (s.online, [])).1 := by
    simp only [asmp_suspend]
    split_ifs <;> rfl
  rw [honline]
  by_cases hc0 : c = 0
  · subst hc0
    rw [cpu_online, hmask 0]
    simp [cpu_online]
  · by_cases hc8 : c < nr_cpu_ids
    · have hmem : c ∈ (List.range (nr_cpu_ids + 1)).reverse := by
        simp only [List.mem_reverse, List.mem_range]
        omega
      rw [cpu_online, hmask c, if_pos ⟨hmem, hc0, hc8⟩]
      simp [hc0]
    · rw [cpu_online, hmask c, if_neg (fun h => hc8 h.2.2)]
      simp [cpu_online, hc0, hc8]

/-! ### Minimum / maximum characterisation of a sampling pass -/

lemma sel_intro (cluster : Nat) (o : Nat → Bool) (c : Nat)
    (hon : cpu_online c o = true)
    (htop : topology_physical_package_id c = cluster) (hne : c ≠ 0) :
    sel cluster o c = true := by
  simp [sel, hon, htop, hne]

lemma sample_pass_little_min (o : Nat → Bool) (f : Nat → Nat)
    (hf : ∀ c, f c ≤ UINT_MAX) (h0 : cpu_online 0 o = true) :
    (∀ c, cpu_online c o = true →
      topology_physical_package_id c = CLUSTER_LITTLE →
      (sample_pass CLUSTER_LITTLE 0 0 o f).slow_rate ≤ f c) ∧
    (∃ c, cpu_online c o = true ∧
      topology_physical_package_id c = CLUSTER_LITTLE ∧
      (sample_pass CLUSTER_LITTLE 0 0 o f).slow_rate = f c) := by
  rw [sample_pass_eq]
  rcases sample_fold_spec CLUSTER_LITTLE 0 (f 0) o f with h | h
  · have hrate : (sample_fold CLUSTER_LITTLE 0 (f 0) o f).slow_rate = UINT_MAX := by
      have := h.2.1
      dsimp only at this
      exact this
    have hnosel : ∀ c, cpu_online c o = true →
        topology_physical_package_id c = CLUSTER_LITTLE → c ≠ 0 → False := by
      intro c hon htop hne
      have hsel := sel_intro CLUSTER_LITTLE o c hon htop hne
      have := h.2.2 c (mem_possible_of_sel _ _ _ hsel) hsel
      dsimp only at this
      have := hf c
      omega
    split_ifs with hlt
    · refine ⟨?_, 0, h0, rfl, rfl⟩
      intro c hon htop
      by_cases hc : c = 0
      · subst hc; exact le_refl _
      · exact absurd (hnosel c hon htop hc) not_false
    · rw [hrate] at hlt ⊢
      have hf0 : f 0 = UINT_MAX := by have := hf 0; omega
      refine ⟨?_, 0, h0, rfl, hf0.symm⟩
      intro c hon htop
      by_cases hc : c = 0
      · subst hc; omega
      · exact absurd (hnosel c hon htop hc) not_false
  · obtain ⟨hsel, hmem, hrate, _, hbound, _⟩ := h
    split_ifs with hlt
    · refine ⟨?_, 0, h0, rfl, rfl⟩
      intro c hon htop
      by_cases hc : c = 0
      · subst hc; exact le_refl _
      · have hselc := sel_intro CLUSTER_LITTLE o c hon htop hc
        have := hbound c (mem_possible_of_sel _ _ _ hselc) hselc
        dsimp only
        omega
    · refine ⟨?_, (sample_fold CLUSTER_LITTLE 0 (f 0) o f).slow_cpu,
        online_of_sel _ _ _ hsel, cluster_of_sel _ _ _ hsel, hrate⟩
      intro c hon htop
      by_cases hc : c = 0
      · subst hc; omega
      · have hselc := sel_intro CLUSTER_LITTLE o c hon htop hc
        exact hbound c (mem_possible_of_sel _ _ _ hselc) hselc

lemma big_member_nonzero (c : Nat)
    (htop : topology_physical_package_id c = CLUSTER_BIG) : c ≠ 0 := by
  simp only [topology_physical_package_id, CLUSTER_BIG] at htop
  omega

lemma sample_pass_big_min (o : Nat → Bool) (f : Nat → Nat)
    (hf : ∀ c, f c ≤ UINT_MAX)
    (hB : num_online_cluster_cpus CLUSTER_BIG o ≠ 0) :
    (∀ c, cpu_online c o = true →
      topology_physical_package_id c = CLUSTER_BIG →
      (sample_pass CLUSTER_BIG (get_online_core CLUSTER_BIG o) 4 o f).slow_rate ≤ f c) ∧
    (∃ c, cpu_online c o = true ∧
      topology_physical_package_id c = CLUSTER_BIG ∧
      (sample_pass CLUSTER_BIG (get_online_core CLUSTER_BIG o) 4 o f).slow_rate = f c) := by
  obtain ⟨hrefsel, hrefmem⟩ := get_online_core_big_sel o hB
  rw [sample_pass_eq]
  rcases sample_fold_spec CLUSTER_BIG 4 (f (get_online_core CLUSTER_BIG o)) o f
    with h | h
  · have := h.2.2 _ hrefmem hrefsel
    dsimp only at this
    have := hf (get_online_core CLUSTER_BIG o)
    omega
  · obtain ⟨hsel, hmem, hrate, _, hbound, _⟩ := h
    split_ifs with hlt
    · refine ⟨?_, get_online_core CLUSTER_BIG o, online_of_sel _ _ _ hrefsel,
        cluster_of_sel _ _ _ hrefsel, rfl⟩
      intro c hon htop
      have hselc := sel_intro CLUSTER_BIG o c hon htop (big_member_nonzero c htop)
      have := hbound c (mem_possible_of_sel _ _ _ hselc) hselc
      dsimp only
      omega
    · refine ⟨?_,
        (sample_fold CLUSTER_BIG 4 (f (get_online_core CLUSTER_BIG o)) o f).slow_cpu,
        online_of_sel _ _ _ hsel, cluster_of_sel _ _ _ hsel, hrate⟩
      intro c hon htop
      have hselc := sel_intro CLUSTER_BIG o c hon htop (big_member_nonzero c htop)
      exact hbound c (mem_possible_of_sel _ _ _ hselc) hselc

lemma sample_pass_fast_facts (cluster refCpu slow0 : Nat) (o : Nat → Bool)
    (f : Nat → Nat) :
    f refCpu ≤ (sample_pass cluster refCpu slow0 o f).fast_rate ∧
    ((sample_pass cluster refCpu slow0 o f).fast_rate = f refCpu ∨
      ∃ c ∈ possible_cpus, sel cluster o c = true ∧
        (sample_pass cluster refCpu slow0 o f).fast_rate = f c) := by
  rw [sample_pass_fast_eq]
  exact sample_fold_fast cluster o f
    { slow_cpu := slow0, slow_rate := UINT_MAX, fast_rate := f refCpu }

/-! ### Claim theorems -/

/-- C1: on every tick and every suspend transition, core 0 (the anchor)
is never requested offline: the little-cluster decision block, the
HMP handler (trade-down included) and the suspend unplug loop never issue
`cpu_down(0)`. -/
theorem anchor_never_requested_offline :
    (∀ (p : AsmpParam) (maxFreq freq : Nat → Nat) (s : AsmpState),
      Event.down 0 ∉ (asmp_work_fn p maxFreq freq s).2) ∧
    (∀ (enabled : Bool) (s : AsmpState),
      Event.down 0 ∉ (asmp_suspend enabled s).2) := by
  constructor
  · intro p maxFreq freq s
    simp only [asmp_work_fn]
    intro hmem
    rcases List.mem_append.mp hmem with h | h
    · exact engine_no_down0 _ _ _ _ _ _ _ _ _ _ h
    · exact hmp_no_down0 _ _ _ _ _ h
  · intro enabled s
    rw [asmp_suspend_trace]
    intro hmem
    rcases List.mem_append.mp hmem with h | h
    · obtain ⟨c, hc, he⟩ := List.mem_map.mp h
      have hc0 : c = 0 := by
        simpa using he
      subst hc0
      have := (List.mem_filter.mp hc).2
      simp at this
    · cases enabled <;> simp_all

/-- C1 witness: the theorem applied at the default parameters and the
all-little-online state. -/
theorem anchor_never_requested_offline_witness :
    Event.down 0 ∉ (asmp_work_fn pDef mfC fC sC3).2 ∧
    Event.down 0 ∉ (asmp_suspend true sC3).2 :=
  ⟨anchor_never_requested_offline.1 pDef mfC fC sC3,
   anchor_never_requested_offline.2 true sC3⟩

/-- C4: at the HMP-arbitration point, with zero big cores online: if the
little cluster holds `MAX_CPU_PER_CLUSTERS` online cores, exactly one big
core (cpu 4) is requested online and the little cluster is cut to exactly
2 online cores — the anchor and cpu 3; below that cap nothing happens. -/
theorem hmp_tradedown_correct (p : AsmpParam) (maxFreq freq : Nat → Nat)
    (o : Nat → Bool) (cycle : Nat)
    (hB : num_online_cluster_cpus CLUSTER_BIG o = 0) :
    (num_online_cluster_cpus CLUSTER_LITTLE o = MAX_CPU_PER_CLUSTERS →
      (hmp_handler p maxFreq freq o cycle).2.2 =
        [Event.up 4, Event.down 1, Event.down 2] ∧
      num_online_cluster_cpus CLUSTER_BIG
        (hmp_handler p maxFreq freq o cycle).1 = 1 ∧
      num_online_cluster_cpus CLUSTER_LITTLE
        (hmp_handler p maxFreq freq o cycle).1 = 2 ∧
      (hmp_handler p maxFreq freq o cycle).1 0 = true ∧
      (hmp_handler p maxFreq freq o cycle).1 3 = true) ∧
    (num_online_cluster_cpus CLUSTER_LITTLE o < MAX_CPU_PER_CLUSTERS →
      hmp_handler p maxFreq freq o cycle = (o, cycle, [])) := by
  have hz : (num_online_cluster_cpus CLUSTER_BIG o == 0) = true := by simp [hB]
  constructor
  · intro h4
    have h4' : num_online_cluster_cpus CLUSTER_LITTLE o = 4 := by
      simpa [MAX_CPU_PER_CLUSTERS] using h4
    obtain ⟨ha, hb, hc, hd⟩ := count_little_all o (by omega)
    obtain ⟨he, hf, hg, hh⟩ := count_big_zero o hB
    have heff := hmp_trade_effect o ha hb hc hd he hf hg hh
    simp only [hmp_handler]
    rw [if_pos hz, if_pos (by omega : MAX_CPU_PER_CLUSTERS ≤
      num_online_cluster_cpus CLUSTER_LITTLE o), h4']
    dsimp only
    have hoff4 := heff.2.1
    rw [hoff4] at heff
    rw [hoff4, heff.1]
    exact ⟨rfl, heff.2.2.2.1, heff.2.2.1, heff.2.2.2.2.1, heff.2.2.2.2.2⟩
  · intro hlt
    simp only [hmp_handler]
    rw [if_pos hz, if_neg (Nat.not_le.mpr hlt)]

/-- C4 witness: the theorem applied to the state with 4 little cores
online and no big core. -/
theorem hmp_tradedown_correct_witness :
    (hmp_handler pDef mfC fC oC4 3).2.2 =
      [Event.up 4, Event.down 1, Event.down 2] ∧
    num_online_cluster_cpus CLUSTER_BIG (hmp_handler pDef mfC fC oC4 3).1 = 1 ∧
    num_online_cluster_cpus CLUSTER_LITTLE (hmp_handler pDef mfC fC oC4 3).1 = 2 ∧
    (hmp_handler pDef mfC fC oC4 3).1 0 = true ∧
    (hmp_handler pDef mfC fC oC4 3).1 3 = true :=
  (hmp_tradedown_correct pDef mfC fC oC4 3 (by decide)).1 (by decide)

/-- C8: in a decision block, a `slow_rate` exactly equal to the up
threshold fires no scale-up (the comparison is strict), and a `fast_rate`
exactly equal to the down threshold fires no scale-down. -/
theorem boundary_strict (upR downR cycUp cycDownEff minC nzStart : Nat)
    (smp : SampleResult) (nr : Nat) (o : Nat → Bool) (cycle : Nat) :
    (smp.slow_rate = upR → ∀ c, Event.up c ∉
      (engine_step upR downR cycUp cycDownEff minC nzStart smp nr o cycle).2.2) ∧
    (smp.fast_rate = downR → ∀ c, Event.down c ∉
      (engine_step upR downR cycUp cycDownEff minC nzStart smp nr o cycle).2.2) := by
  constructor
  · intro h c
    exact engine_no_up upR downR cycUp cycDownEff minC nzStart smp nr o cycle
      (by rw [h]; exact lt_irrefl upR) c
  · intro h c
    exact engine_no_down upR downR cycUp cycDownEff minC nzStart smp nr o cycle
      (by rw [h]; exact lt_irrefl downR) c

/-- C8 witness: the theorem applied at a sample sitting exactly on both
thresholds. -/
theorem boundary_strict_witness :
    Event.up 1 ∉ (engine_step 60 30 1 1 1 0 smpW 4 oFull 5).2.2 ∧
    Event.down 1 ∉ (engine_step 60 30 1 1 1 0 smpW 4 oFull 5).2.2 :=
  ⟨(boundary_strict 60 30 1 1 1 0 smpW 4 oFull 5).1 rfl 1,
   (boundary_strict 60 30 1 1 1 0 smpW 4 oFull 5).2 rfl 1⟩

/-- C9 counterexample: `cycle_down = 1431655766` makes the u32 product
`cycle_down * 3` wrap to 2, so a performance-cluster scale-down fires
with the counter at only 2 — far below 3 times the configured count. -/
theorem hmp_big_cycle_counterexample :
    (hmp_handler pC9 mfC fC oC9 2).2.2 = [Event.down 4] ∧
    (2 : Nat) < 3 * pC9.cycle_down := by decide

/-- C9 amended: with at least one big core online, the big-cluster block
gates a scale-up by the configured `cycle_up` unmodified, and a
scale-down by the u32 product `cycle_down * 3` — equal to 3 times the
configured count whenever that product fits in 32 bits, but wrapped
modulo 2^32 otherwise. -/
theorem hmp_big_thresholds (p : AsmpParam) (maxFreq freq : Nat → Nat)
    (o : Nat → Bool) (cycle : Nat)
    (hB : num_online_cluster_cpus CLUSTER_BIG o ≠ 0) :
    (∀ c, Event.up c ∈ (hmp_handler p maxFreq freq o cycle).2.2 →
      p.cycle_up ≤ cycle) ∧
    (∀ c, Event.down c ∈ (hmp_handler p maxFreq freq o cycle).2.2 →
      u32 (p.cycle_down * 3) ≤ cycle) ∧
    (p.cycle_down * 3 ≤ UINT_MAX →
      ∀ c, Event.down c ∈ (hmp_handler p maxFreq freq o cycle).2.2 →
        p.cycle_down * 3 ≤ cycle) ∧
    ((up_rate p maxFreq CLUSTER_BIG <
        (sample_pass CLUSTER_BIG (get_online_core CLUSTER_BIG o) 4 o freq).slow_rate ∧
      num_online_cluster_cpus CLUSTER_BIG o < MAX_CPU_PER_CLUSTERS ∧
      p.cycle_up ≤ cycle) →
      (hmp_handler p maxFreq freq o cycle).2.2 =
        [Event.up (cpumask_next_zero 3 o)]) := by
  have hz : ¬ (num_online_cluster_cpus CLUSTER_BIG o == 0) = true := by
    simpa using hB
  have hwrap : p.cycle_down * 3 ≤ UINT_MAX →
      u32 (p.cycle_down * 3) = p.cycle_down * 3 := by
    intro h
    simp only [UINT_MAX] at h
    simp only [u32]
    omega
  simp only [hmp_handler]
  rw [if_neg hz]
  refine ⟨fun c => engine_up_cycle _ _ _ _ _ _ _ _ _ _ c,
    fun c => engine_down_cycle _ _ _ _ _ _ _ _ _ _ c, ?_,
    fun h => engine_up_fires _ _ _ _ _ _ _ _ _ _ h.1 h.2.1 h.2.2⟩
  intro hle c hmem
  have hcd := engine_down_cycle _ _ _ _ _ _ _ _ _ _ c hmem
  rw [hwrap hle] at hcd
  exact hcd

/-- C9 witness: a big cluster of one fast core scales up at
`cycle_up = 1` with the counter at 5. -/
theorem hmp_big_thresholds_witness :
    (hmp_handler pDef mfC fH oC9 5).2.2 = [Event.up (cpumask_next_zero 3 oC9)] :=
  (hmp_big_thresholds pDef mfC fH oC9 5 (by decide)).2.2.2
    ⟨by decide, by decide, by decide⟩

/-- C10: `get_offline_core` answers 0 when every possible core of the
cluster is online, and `get_online_core` answers 0 when no core of the
cluster other than core 0 is online — the anchor's id doubles as the
"no candidate" sentinel. -/
theorem helper_sentinel_zero (cluster : Nat) (o : Nat → Bool) :
    ((∀ c ∈ possible_cpus, topology_physical_package_id c = cluster →
        cpu_online c o = true) →
      get_offline_core cluster o = 0) ∧
    ((∀ c ∈ possible_cpus, c ≠ 0 → topology_physical_package_id c = cluster →
        cpu_online c o = false) →
      get_online_core cluster o = 0) := by
  constructor
  · intro h
    unfold get_offline_core
    rw [List.find?_eq_none.mpr ?_]
    · rfl
    · intro c hc
      by_cases ht : topology_physical_package_id c = cluster
      · simp [ht, h c hc ht]
      · simp [ht]
  · intro h
    unfold get_online_core
    rw [List.find?_eq_none.mpr ?_]
    · rfl
    · intro c hc
      by_cases hc0 : c = 0
      · simp [hc0]
      · by_cases ht : topology_physical_package_id c = cluster
        · simp [ht, h c hc hc0 ht]
        · simp [ht]

/-- C10 witness: the theorem applied to a fully-online mask and to a mask
with no big core online. -/
theorem helper_sentinel_zero_witness :
    get_offline_core CLUSTER_LITTLE oFull = 0 ∧
    get_online_core CLUSTER_BIG oC4 = 0 :=
  ⟨(helper_sentinel_zero CLUSTER_LITTLE oFull).1 (by decide),
   (helper_sentinel_zero CLUSTER_BIG oC4).2 (by decide)⟩

/-- C2 counterexample: with `min_cpus = 5` the tick leaves the little
cluster at 4 online cores, outside `[min_cpus, max_cpus]` — the tick
never enforces the configured bounds on an out-of-range configuration. -/
theorem cluster_bounds_counterexample :
    num_online_cluster_cpus CLUSTER_LITTLE
      (asmp_work_fn pC2 mfC fC sC2).1.online = 4 ∧
    ¬(pC2.min_cpus ≤ 4 ∧ 4 ≤ pC2.max_cpus) := by decide

/-- C2 amended: after a tick each cluster's online count stays within
`[configured min, MAX_CPU_PER_CLUSTERS]` — the hard-coded cap of 4, not
the configured `max_cpus`, which the tick never reads — provided the
counts start at or above their configured minima, the anchor is online,
and `min_cpus ≤ 2` so that the HMP trade-down (which cuts the little
cluster to 2 regardless of `min_cpus`) cannot undershoot. -/
theorem cluster_bounds_amended (p : AsmpParam) (maxFreq freq : Nat → Nat)
    (s : AsmpState)
    (h0 : cpu_online 0 s.online = true)
    (hmin2 : p.min_cpus ≤ 2)
    (hL : p.min_cpus ≤ num_online_cluster_cpus CLUSTER_LITTLE s.online)
    (hB : p.min_cpus_hmp ≤ num_online_cluster_cpus CLUSTER_BIG s.online) :
    p.min_cpus ≤ num_online_cluster_cpus CLUSTER_LITTLE
        (asmp_work_fn p maxFreq freq s).1.online ∧
    num_online_cluster_cpus CLUSTER_LITTLE
        (asmp_work_fn p maxFreq freq s).1.online ≤ MAX_CPU_PER_CLUSTERS ∧
    p.min_cpus_hmp ≤ num_online_cluster_cpus CLUSTER_BIG
        (asmp_work_fn p maxFreq freq s).1.online ∧
    num_online_cluster_cpus CLUSTER_BIG
        (asmp_work_fn p maxFreq freq s).1.online ≤ MAX_CPU_PER_CLUSTERS := by
  have h0' : s.online 0 = true := online_of_cpu_online 0 s.online h0
  have hec := engine_counts_little (up_rate p maxFreq CLUSTER_LITTLE)
    (down_rate p maxFreq CLUSTER_LITTLE) p.cycle_up p.cycle_down p.min_cpus
    (sample_pass CLUSTER_LITTLE 0 0 s.online freq)
    (num_online_cluster_cpus CLUSTER_LITTLE s.online) s.online
    (u32 (s.cycle + 1)) rfl h0' (sample_pass_little_slowclus 0 s.online freq)
  have hh := hmp_counts p maxFreq freq
    (engine_step (up_rate p maxFreq CLUSTER_LITTLE)
      (down_rate p maxFreq CLUSTER_LITTLE) p.cycle_up p.cycle_down p.min_cpus 0
      (sample_pass CLUSTER_LITTLE 0 0 s.online freq)
      (num_online_cluster_cpus CLUSTER_LITTLE s.online) s.online
      (u32 (s.cycle + 1))).1
    (engine_step (up_rate p maxFreq CLUSTER_LITTLE)
      (down_rate p maxFreq CLUSTER_LITTLE) p.cycle_up p.cycle_down p.min_cpus 0
      (sample_pass CLUSTER_LITTLE 0 0 s.online freq)
      (num_online_cluster_cpus CLUSTER_LITTLE s.online) s.online
      (u32 (s.cycle + 1))).2.1
    hmin2 (hec.1 hL) (by rw [hec.2]; exact hB)
  simp only [asmp_work_fn]
  exact ⟨hh.1, count_little_le _, hh.2, count_big_le _⟩

/-- C2 witness: the amended theorem applied at defaults with all little
cores online. -/
theorem cluster_bounds_amended_witness :
    pDef.min_cpus ≤ num_online_cluster_cpus CLUSTER_LITTLE
        (asmp_work_fn pDef mfC fC sC3).1.online ∧
    num_online_cluster_cpus CLUSTER_LITTLE
        (asmp_work_fn pDef mfC fC sC3).1.online ≤ MAX_CPU_PER_CLUSTERS ∧
    pDef.min_cpus_hmp ≤ num_online_cluster_cpus CLUSTER_BIG
        (asmp_work_fn pDef mfC fC sC3).1.online ∧
    num_online_cluster_cpus CLUSTER_BIG
        (asmp_work_fn pDef mfC fC sC3).1.online ≤ MAX_CPU_PER_CLUSTERS :=
  cluster_bounds_amended pDef mfC fC sC3 (by decide) (by decide) (by decide)
    (by decide)

/-- C3 counterexample: a tick whose only actions are the HMP trade-down's
three hotplug requests leaves the counter at 6 = 5 + 1 instead of
resetting it to 0, and issues three hotplug actions in a single tick. -/
theorem hysteresis_counterexample :
    (asmp_work_fn pDef mfC fC sC3).2 =
      [Event.up 4, Event.down 1, Event.down 2] ∧
    (asmp_work_fn pDef mfC fC sC3).1.cycle = 6 ∧
    sC3.cycle = 5 := by decide

/-- C3 amended: the u32 counter is incremented exactly once per tick
(wrapping at 2^32); every Decision-Engine action (efficiency or
performance, scale up or down) resets it to 0 — equivalently, a tick that
leaves the counter non-zero issued either no requests or exactly the HMP
trade-down's three requests, which are not gated by the counter and do
not reset it; and a zero counter after a tick means a request was issued
or the increment itself wrapped to zero. -/
theorem hysteresis_amended (p : AsmpParam) (maxFreq freq : Nat → Nat)
    (s : AsmpState) (hf : ∀ c, freq c ≤ UINT_MAX) :
    ((asmp_work_fn p maxFreq freq s).1.cycle = 0 ∨
      (asmp_work_fn p maxFreq freq s).1.cycle = u32 (s.cycle + 1)) ∧
    ((asmp_work_fn p maxFreq freq s).2 = [] →
      (asmp_work_fn p maxFreq freq s).1.cycle = u32 (s.cycle + 1)) ∧
    ((asmp_work_fn p maxFreq freq s).1.cycle ≠ 0 →
      (asmp_work_fn p maxFreq freq s).2 = [] ∨
      (asmp_work_fn p maxFreq freq s).2 =
        [Event.up 4, Event.down 1, Event.down 2]) ∧
    ((asmp_work_fn p maxFreq freq s).1.cycle = 0 →
      (asmp_work_fn p maxFreq freq s).2 ≠ [] ∨ u32 (s.cycle + 1) = 0) := by
  have key : (asmp_work_fn p maxFreq freq s).2 = [] →
      (asmp_work_fn p maxFreq freq s).1.cycle = u32 (s.cycle + 1) := by
    simp only [asmp_work_fn]
    intro hemp
    obtain ⟨h1, h2⟩ := List.append_eq_nil.mp hemp
    obtain ⟨ho1, hcyc1⟩ := engine_empty (up_rate p maxFreq CLUSTER_LITTLE)
      (down_rate p maxFreq CLUSTER_LITTLE) p.cycle_up p.cycle_down p.min_cpus 0
      (sample_pass CLUSTER_LITTLE 0 0 s.online freq)
      (num_online_cluster_cpus CLUSTER_LITTLE s.online) s.online
      (u32 (s.cycle + 1))
      (sample_pass_little_emit 0 s.online freq) h1
    obtain ⟨_, hcyc2⟩ := hmp_empty p maxFreq freq _ _ hf h2
    rw [hcyc2, hcyc1]
  have dich : (asmp_work_fn p maxFreq freq s).1.cycle = 0 ∨
      (asmp_work_fn p maxFreq freq s).1.cycle = u32 (s.cycle + 1) := by
    simp only [asmp_work_fn]
    rcases hmp_cycle p maxFreq freq
      (engine_step (up_rate p maxFreq CLUSTER_LITTLE)
        (down_rate p maxFreq CLUSTER_LITTLE) p.cycle_up p.cycle_down p.min_cpus 0
        (sample_pass CLUSTER_LITTLE 0 0 s.online freq)
        (num_online_cluster_cpus CLUSTER_LITTLE s.online) s.online
        (u32 (s.cycle + 1))).1
      (engine_step (up_rate p maxFreq CLUSTER_LITTLE)
        (down_rate p maxFreq CLUSTER_LITTLE) p.cycle_up p.cycle_down p.min_cpus 0
        (sample_pass CLUSTER_LITTLE 0 0 s.online freq)
        (num_online_cluster_cpus CLUSTER_LITTLE s.online) s.online
        (u32 (s.cycle + 1))).2.1
      with h | h
    · exact Or.inl h
    · rcases engine_cycle (up_rate p maxFreq CLUSTER_LITTLE)
        (down_rate p maxFreq CLUSTER_LITTLE) p.cycle_up p.cycle_down p.min_cpus 0
        (sample_pass CLUSTER_LITTLE 0 0 s.online freq)
        (num_online_cluster_cpus CLUSTER_LITTLE s.online) s.online
        (u32 (s.cycle + 1))
        with h2 | h2
      · exact Or.inl (by rw [h, h2])
      · exact Or.inr (by rw [h, h2])
  have act : (asmp_work_fn p maxFreq freq s).1.cycle ≠ 0 →
      (asmp_work_fn p maxFreq freq s).2 = [] ∨
      (asmp_work_fn p maxFreq freq s).2 =
        [Event.up 4, Event.down 1, Event.down 2] := by
    simp only [asmp_work_fn]
    intro hne
    have hE : (engine_step (up_rate p maxFreq CLUSTER_LITTLE)
        (down_rate p maxFreq CLUSTER_LITTLE) p.cycle_up p.cycle_down p.min_cpus 0
        (sample_pass CLUSTER_LITTLE 0 0 s.online freq)
        (num_online_cluster_cpus CLUSTER_LITTLE s.online) s.online
        (u32 (s.cycle + 1))).2.2 = [] := by
      by_contra hEne
      have hz := engine_act _ _ _ _ _ _ _ _ _ _ hEne
      rcases hmp_cycle p maxFreq freq
        (engine_step (up_rate p maxFreq CLUSTER_LITTLE)
          (down_rate p maxFreq CLUSTER_LITTLE) p.cycle_up p.cycle_down
          p.min_cpus 0 (sample_pass CLUSTER_LITTLE 0 0 s.online freq)
          (num_online_cluster_cpus CLUSTER_LITTLE s.online) s.online
          (u32 (s.cycle + 1))).1
        (engine_step (up_rate p maxFreq CLUSTER_LITTLE)
          (down_rate p maxFreq CLUSTER_LITTLE) p.cycle_up p.cycle_down
          p.min_cpus 0 (sample_pass CLUSTER_LITTLE 0 0 s.online freq)
          (num_online_cluster_cpus CLUSTER_LITTLE s.online) s.online
          (u32 (s.cycle + 1))).2.1
        with h | h
      · exact hne h
      · exact hne (h.trans hz)
    rcases hmp_act p maxFreq freq
      (engine_step (up_rate p maxFreq CLUSTER_LITTLE)
        (down_rate p maxFreq CLUSTER_LITTLE) p.cycle_up p.cycle_down p.min_cpus 0
        (sample_pass CLUSTER_LITTLE 0 0 s.online freq)
        (num_online_cluster_cpus CLUSTER_LITTLE s.online) s.online
        (u32 (s.cycle + 1))).1
      (engine_step (up_rate p maxFreq CLUSTER_LITTLE)
        (down_rate p maxFreq CLUSTER_LITTLE) p.cycle_up p.cycle_down p.min_cpus 0
        (sample_pass CLUSTER_LITTLE 0 0 s.online freq)
        (num_online_cluster_cpus CLUSTER_LITTLE s.online) s.online
        (u32 (s.cycle + 1))).2.1
      hne with h | h
    · left
      rw [hE, h]
      rfl
    · right
      rw [hE, h]
      rfl
  refine ⟨dich, key, act, fun hc => ?_⟩
  by_cases hemp : (asmp_work_fn p maxFreq freq s).2 = []
  · exact Or.inr (by rw [← key hemp]; exact hc)
  · exact Or.inl hemp

/-- C3 witness: the amended theorem applied at defaults on a quiet
state. -/
theorem hysteresis_amended_witness :
    (asmp_work_fn pDef mfC fC sC2).1.cycle = 0 ∨
      (asmp_work_fn pDef mfC fC sC2).1.cycle = u32 (sC2.cycle + 1) :=
  (hysteresis_amended pDef mfC fC sC2
    (fun _ => (by decide : (50 : Nat) ≤ UINT_MAX))).1

/-- C5 counterexample: on a display-off with cpus 0 and 1 online, the
suspend path issues `cpu_down(1)` first and cancels the tick last — the
trace does not start with the cancellation. -/
theorem suspend_order_counterexample :
    (asmp_suspend true sC5).2 = [Event.down 1, Event.cancelTick] ∧
    (asmp_suspend true sC5).2.head? ≠ some Event.cancelTick ∧
    Event.cancelTick ∈ (asmp_suspend true sC5).2 := by decide

/-- C5 amended: a display-off event first offlines every online
non-anchor core in descending id order, and only then — and only when the
enabled flag is set — synchronously cancels the tick; afterwards the work
is no longer queued until a display-on event re-queues it. -/
theorem suspend_amended (s : AsmpState) :
    (lcd_notifier_call true LcdEvent.offEnd s).2 =
      (((List.range (nr_cpu_ids + 1)).reverse).filter
        (fun c => cpu_online c s.online && !(c == 0))).map Event.down ++
        [Event.cancelTick] ∧
    (∀ c, cpu_online c (lcd_notifier_call true LcdEvent.offEnd s).1.online =
      (decide (c = 0) && cpu_online c s.online)) ∧
    (lcd_notifier_call true LcdEvent.offEnd s).1.queued = false ∧
    (∀ s2 : AsmpState, Event.cancelTick ∉ (asmp_suspend false s2).2) ∧
    (lcd_notifier_call true LcdEvent.onStart s).1.queued = true := by
  refine ⟨?_, ?_, ?_, ?_, ?_⟩
  · show (asmp_suspend true s).2 = _
    rw [asmp_suspend_trace]
    rfl
  · intro c
    show cpu_online c (asmp_suspend true s).1.online = _
    exact asmp_suspend_mask true s c
  · show (asmp_suspend true s).1.queued = false
    simp [asmp_suspend]
  · intro s2
    rw [asmp_suspend_trace]
    simp
  · show (asmp_resume true s).1.queued = true
    simp [asmp_resume]

/-- C5 witness: the amended theorem applied to the fully-online state. -/
theorem suspend_amended_witness :
    (lcd_notifier_call true LcdEvent.offEnd sW5).2 =
      (((List.range (nr_cpu_ids + 1)).reverse).filter
        (fun c => cpu_online c sW5.online && !(c == 0))).map Event.down ++
        [Event.cancelTick] ∧
    (lcd_notifier_call true LcdEvent.offEnd sW5).1.queued = false :=
  ⟨(suspend_amended sW5).1, (suspend_amended sW5).2.2.1⟩

/-- C6 counterexample: with cpus 0 and 1 online reading 0 and 5, the
little pass reports `fast_rate = 0` although online member cpu 1 reads 5
— `fast_rate` is not the maximum, because a sample that takes over the
running minimum is skipped in the maximum comparison. -/
theorem sampler_fast_counterexample :
    (sample_pass CLUSTER_LITTLE 0 0 oC6 fC6).fast_rate = 0 ∧
    cpu_online 1 oC6 = true ∧
    topology_physical_package_id 1 = CLUSTER_LITTLE ∧
    fC6 1 = 5 ∧
    (sample_pass CLUSTER_LITTLE 0 0 oC6 fC6).fast_rate < fC6 1 := by decide

/-- C6 amended: for each sampled cluster, `slow_rate` is exactly the
minimum frequency over the online members (anchor included); `fast_rate`
is only a sound lower approximation of the maximum: it is at least the
reference cpu's rate and is always the rate of some online member, but
can fall below the true maximum. -/
theorem sampler_rates_amended (o : Nat → Bool) (f : Nat → Nat)
    (hf : ∀ c, f c ≤ UINT_MAX) (h0 : cpu_online 0 o = true) :
    ((∀ c, cpu_online c o = true →
        topology_physical_package_id c = CLUSTER_LITTLE →
        (sample_pass CLUSTER_LITTLE 0 0 o f).slow_rate ≤ f c) ∧
      (∃ c, cpu_online c o = true ∧
        topology_physical_package_id c = CLUSTER_LITTLE ∧
        (sample_pass CLUSTER_LITTLE 0 0 o f).slow_rate = f c) ∧
      f 0 ≤ (sample_pass CLUSTER_LITTLE 0 0 o f).fast_rate ∧
      (∃ c, cpu_online c o = true ∧
        topology_physical_package_id c = CLUSTER_LITTLE ∧
        (sample_pass CLUSTER_LITTLE 0 0 o f).fast_rate = f c)) ∧
    (num_online_cluster_cpus CLUSTER_BIG o ≠ 0 →
      (∀ c, cpu_online c o = true →
        topology_physical_package_id c = CLUSTER_BIG →
        (sample_pass CLUSTER_BIG (get_online_core CLUSTER_BIG o) 4 o f).slow_rate
          ≤ f c) ∧
      (∃ c, cpu_online c o = true ∧
        topology_physical_package_id c = CLUSTER_BIG ∧
        (sample_pass CLUSTER_BIG (get_online_core CLUSTER_BIG o) 4 o f).slow_rate
          = f c) ∧
      f (get_online_core CLUSTER_BIG o) ≤
        (sample_pass CLUSTER_BIG (get_online_core CLUSTER_BIG o) 4 o f).fast_rate ∧
      (∃ c, cpu_online c o = true ∧
        topology_physical_package_id c = CLUSTER_BIG ∧
        (sample_pass CLUSTER_BIG (get_online_core CLUSTER_BIG o) 4 o f).fast_rate
          = f c)) := by
  constructor
  · obtain ⟨hmin, hex⟩ := sample_pass_little_min o f hf h0
    obtain ⟨hfle, hfex⟩ := sample_pass_fast_facts CLUSTER_LITTLE 0 0 o f
    refine ⟨hmin, hex, hfle, ?_⟩
    rcases hfex with h | ⟨c, _, hsel, heq⟩
    · exact ⟨0, h0, rfl, h⟩
    · exact ⟨c, online_of_sel _ _ _ hsel, cluster_of_sel _ _ _ hsel, heq⟩
  · intro hB
    obtain ⟨hmin, hex⟩ := sample_pass_big_min o f hf hB
    obtain ⟨hfle, hfex⟩ :=
      sample_pass_fast_facts CLUSTER_BIG (get_online_core CLUSTER_BIG o) 4 o f
    obtain ⟨hrefsel, _⟩ := get_online_core_big_sel o hB
    refine ⟨hmin, hex, hfle, ?_⟩
    rcases hfex with h | ⟨c, _, hsel, heq⟩
    · exact ⟨get_online_core CLUSTER_BIG o, online_of_sel _ _ _ hrefsel,
        cluster_of_sel _ _ _ hrefsel, h⟩
    · exact ⟨c, online_of_sel _ _ _ hsel, cluster_of_sel _ _ _ hsel, heq⟩

/-- C6 witness: the amended theorem applied to the counterexample mask,
instantiated at member cpu 1. -/
theorem sampler_rates_amended_witness :
    (sample_pass CLUSTER_LITTLE 0 0 oC6 fC6).slow_rate ≤ fC6 1 ∧
    fC6 0 ≤ (sample_pass CLUSTER_LITTLE 0 0 oC6 fC6).fast_rate :=
  ⟨((sampler_rates_amended oC6 fC6
      (fun c => by simp only [fC6]; split <;> decide) (by decide)).1).1 1
      (by decide) (by decide),
   ((sampler_rates_amended oC6 fC6
      (fun c => by simp only [fC6]; split <;> decide) (by decide)).1).2.2.1⟩

/-- C7 counterexample: with cpus 0, 1, 2 online all reading 7, the unplug
candidate is cpu 2 — the tie among non-anchor cores is broken toward the
core encountered last, not first. -/
theorem tiebreak_counterexample :
    (sample_pass CLUSTER_LITTLE 0 0 oC7 fC7).slow_cpu = 2 ∧
    sel CLUSTER_LITTLE oC7 1 = true ∧
    sel CLUSTER_LITTLE oC7 2 = true ∧
    fC7 1 = fC7 2 ∧ (1 : Nat) < 2 := by decide

/-- C7 amended: for either sampling pass, whenever some non-anchor online
member exists the reported candidate is a non-anchor online member of
minimal frequency, and every member scanned after it is strictly faster —
ties are broken toward the last core encountered, not the first. -/
theorem tiebreak_amended (cluster refCpu slow0 : Nat) (o : Nat → Bool)
    (f : Nat → Nat) (hf : ∀ c, f c ≤ UINT_MAX)
    (c0 : Nat) (hc0 : sel cluster o c0 = true) :
    sel cluster o (sample_pass cluster refCpu slow0 o f).slow_cpu = true ∧
    (∀ c, sel cluster o c = true →
      f ((sample_pass cluster refCpu slow0 o f).slow_cpu) ≤ f c) ∧
    (∀ c, sel cluster o c = true →
      (sample_pass cluster refCpu slow0 o f).slow_cpu < c →
      f ((sample_pass cluster refCpu slow0 o f).slow_cpu) < f c) := by
  have hmem0 := mem_possible_of_sel cluster o c0 hc0
  rcases sample_fold_spec cluster slow0 (f refCpu) o f with h | h
  · exfalso
    have hlt := h.2.2 c0 hmem0 hc0
    dsimp only at hlt
    have := hf c0
    omega
  · obtain ⟨hsel, _, hrate, _, hbound, hstrict⟩ := h
    rw [sample_pass_slow_cpu_eq]
    refine ⟨hsel, ?_, ?_⟩
    · intro c hc
      have hb := hbound c (mem_possible_of_sel cluster o c hc) hc
      rw [hrate] at hb
      exact hb
    · intro c hc hlt
      have hb := hstrict c (mem_possible_of_sel cluster o c hc) hc hlt
      rw [hrate] at hb
      exact hb

/-- C7 witness: the amended theorem applied to the tied sample,
instantiated at member cpu 1. -/
theorem tiebreak_amended_witness :
    sel CLUSTER_LITTLE oC7 (sample_pass CLUSTER_LITTLE 0 0 oC7 fC7).slow_cpu
      = true ∧
    fC7 ((sample_pass CLUSTER_LITTLE 0 0 oC7 fC7).slow_cpu) ≤ fC7 1 :=
  ⟨(tiebreak_amended CLUSTER_LITTLE 0 0 oC7 fC7
      (fun _ => (by decide : (7 : Nat) ≤ UINT_MAX)) 1 (by decide)).1,
   (tiebreak_amended CLUSTER_LITTLE 0 0 oC7 fC7
      (fun _ => (by decide : (7 : Nat) ≤ UINT_MAX)) 1 (by decide)).2.1 1
      (by decide)⟩

end Autosmp
